import Mathlib

/-!
# Verification of the pysiral waveform-retracking engine

Shallow embedding of `pysiral/retracker.py` (the TFMRA / cTFMRA /
SICCI2TfmraEnvisat retrackers and their helper functions) and proofs about
the claims of the specification.

Modelling conventions:

* Python/numpy double values are modelled by `EF`: exact rationals extended
  with `nan`, `+inf` (`pinf`) and `-inf` (`ninf`).  Arithmetic follows the
  IEEE-754 special-value rules used by numpy (`nan` propagates, `x/0` with
  `x > 0` is `+inf`, `0/0` is `nan`, comparisons with `nan` are false, ...),
  with exact rational arithmetic in place of rounding.  Negative IEEE zero
  is not modelled; no statement proved below depends on the sign of zero.
* numpy arrays are Lean lists; python's negative indexing is modelled by
  `pyGet`.  Out-of-range accesses (which raise `IndexError` in python)
  return `EF.nan` / defaults; every access performed by the embedded code on
  the inputs considered here is in range.
* The cython kernels of `pysiral.bnfunc.cytfmra` are not part of the source
  tree; they are modelled from the spec (see the `Modelled from the spec:`
  doc comments below).
-/

/-- Extended floating-point value: a rational (exact model of a finite
double), `nan`, or a signed infinity. -/
inductive EF : Type where
  | nan : EF
  | pinf : EF
  | ninf : EF
  | fin : ℚ → EF
deriving DecidableEq, Repr

namespace EF

/-- `True` iff the value is NaN. -/
def isNan : EF → Bool
  | nan => true
  | _ => false

/-- IEEE negation. -/
def neg : EF → EF
  | nan => nan
  | pinf => ninf
  | ninf => pinf
  | fin a => fin (-a)

/-- IEEE addition (`inf + (-inf) = nan`, `nan` propagates). -/
def add : EF → EF → EF
  | nan, _ => nan
  | _, nan => nan
  | pinf, ninf => nan
  | ninf, pinf => nan
  | pinf, _ => pinf
  | _, pinf => pinf
  | ninf, _ => ninf
  | _, ninf => ninf
  | fin a, fin b => fin (a + b)

/-- IEEE subtraction. -/
def sub (a b : EF) : EF := add a (neg b)

/-- IEEE multiplication (`inf * 0 = nan`). -/
def mul : EF → EF → EF
  | nan, _ => nan
  | _, nan => nan
  | pinf, pinf => pinf
  | pinf, ninf => ninf
  | ninf, pinf => ninf
  | ninf, ninf => pinf
  | pinf, fin b => if 0 < b then pinf else if b < 0 then ninf else nan
  | fin a, pinf => if 0 < a then pinf else if a < 0 then ninf else nan
  | ninf, fin b => if 0 < b then ninf else if b < 0 then pinf else nan
  | fin a, ninf => if 0 < a then ninf else if a < 0 then pinf else nan
  | fin a, fin b => fin (a * b)

/-- IEEE division.  `x / 0` for finite `x ≠ 0` gives a signed infinity
(the zero divisor is treated as `+0`; negative zero is not modelled),
`0 / 0` and `inf / inf` give `nan`, `x / inf = 0`. -/
def div : EF → EF → EF
  | nan, _ => nan
  | _, nan => nan
  | pinf, pinf => nan
  | pinf, ninf => nan
  | ninf, pinf => nan
  | ninf, ninf => nan
  | pinf, fin b => if 0 ≤ b then pinf else ninf
  | ninf, fin b => if 0 ≤ b then ninf else pinf
  | fin _, pinf => fin 0
  | fin _, ninf => fin 0
  | fin a, fin b =>
    if b = 0 then (if 0 < a then pinf else if a < 0 then ninf else nan)
    else fin (a / b)

/-- IEEE strict less-than as a boolean (false whenever an operand is NaN). -/
def ltB : EF → EF → Bool
  | nan, _ => false
  | _, nan => false
  | ninf, ninf => false
  | ninf, _ => true
  | _, ninf => false
  | pinf, _ => false
  | fin _, pinf => true
  | fin a, fin b => decide (a < b)

/-- IEEE less-or-equal as a boolean (false whenever an operand is NaN). -/
def leB : EF → EF → Bool
  | nan, _ => false
  | _, nan => false
  | ninf, _ => true
  | _, ninf => false
  | _, pinf => true
  | pinf, _ => false
  | fin a, fin b => decide (a ≤ b)

/-- Natural power, as numpy computes `x ** i` for float `x` and integer
`i ≥ 0` (`x ** 0 = 1.0` for every `x`, including `nan` and `inf`). -/
def pow : EF → Nat → EF
  | _, 0 => fin 1
  | s, n + 1 => mul s (pow s n)

end EF

/-- Python list indexing: non-negative indices from the front, negative
indices from the back (`xs[-1]` is the last element).  Out-of-range access
(an `IndexError` in python) returns `EF.nan`; it is never reached by the
embedded code on the inputs considered here. -/
def pyGet (xs : List EF) (i : Int) : EF :=
  let j : Int := if 0 ≤ i then i else (xs.length : Int) + i
  if 0 ≤ j ∧ j < (xs.length : Int) then xs.getD j.toNat EF.nan else EF.nan

/-- Zero-extended indexing, used for the implicit zero padding of
`np.convolve`. -/
def getZ (xs : List EF) (i : Int) : EF :=
  if 0 ≤ i ∧ i < (xs.length : Int) then xs.getD i.toNat EF.nan else EF.fin 0

/-- Left fold summation, the order in which numpy/bottleneck accumulate. -/
def efSum (xs : List EF) : EF := xs.foldl EF.add (EF.fin 0)

/-- `np.nanmax`: maximum ignoring NaNs; NaN for an all-NaN (or empty) input. -/
def npNanmax (xs : List EF) : EF :=
  xs.foldl
    (fun acc v =>
      if v.isNan then acc
      else if acc.isNan then v
      else if EF.ltB acc v then v else acc)
    EF.nan

/-- `np.nanmin`: minimum ignoring NaNs; NaN for an all-NaN (or empty) input. -/
def npNanmin (xs : List EF) : EF :=
  xs.foldl
    (fun acc v =>
      if v.isNan then acc
      else if acc.isNan then v
      else if EF.ltB v acc then v else acc)
    EF.nan

/-- `bn.nanmean`: mean of the non-NaN entries; NaN when there are none. -/
def bnNanmean (xs : List EF) : EF :=
  let vals := xs.filter (fun v => !v.isNan)
  if vals.isEmpty then EF.nan
  else EF.div (efSum vals) (EF.fin (vals.length : ℚ))

/-- Helper loop for `np.argmax` (mirrors numpy's float argmax kernel:
update on `¬ (x ≤ current)`, stop at the first NaN). -/
def npArgmaxLoop : List EF → EF → Nat → Nat → Nat
  | [], _, idx, _ => idx
  | y :: ys, mp, idx, i =>
    if EF.leB y mp then npArgmaxLoop ys mp idx (i + 1)
    else if y.isNan then i
    else npArgmaxLoop ys y i (i + 1)

/-- `np.argmax` for a float array: index of the first maximum; if any NaN is
present, the index of the first NaN (numpy treats NaN as maximal).  `none`
for the empty array (where numpy raises). -/
def npArgmax : List EF → Option Nat
  | [] => none
  | x :: rest => if x.isNan then some 0 else some (npArgmaxLoop rest x 0 1)

/-- Helper loop for `bn.nanargmax` (ignores NaNs, first occurrence wins). -/
def bnNanargmaxLoop : List EF → Option (EF × Nat) → Nat → Option (EF × Nat)
  | [], best, _ => best
  | y :: ys, best, i =>
    if y.isNan then bnNanargmaxLoop ys best (i + 1)
    else
      match best with
      | none => bnNanargmaxLoop ys (some (y, i)) (i + 1)
      | some (m, j) =>
        if EF.ltB m y then bnNanargmaxLoop ys (some (y, i)) (i + 1)
        else bnNanargmaxLoop ys (some (m, j)) (i + 1)

/-- `bn.nanargmax`: index of the maximum ignoring NaNs; `none` when the
input is empty or all-NaN (bottleneck raises `ValueError` there, which the
caller catches). -/
def bnNanargmax (xs : List EF) : Option Nat :=
  match bnNanargmaxLoop xs none 0 with
  | none => none
  | some (_, i) => some i

/-- `np.linspace a b m`: `m` uniformly spaced values from `a` to `b`
(exact in rational arithmetic; NaN endpoints propagate). -/
def npLinspace (a b : EF) (m : Nat) : List EF :=
  if m = 0 then []
  else if m = 1 then [a]
  else
    (List.range m).map fun i =>
      EF.add a (EF.div (EF.mul (EF.sub b a) (EF.fin (i : ℚ))) (EF.fin ((m - 1 : Nat) : ℚ)))

/-- `np.searchsorted(xs, q, side="left")` for a sorted array: the number of
elements strictly below `q`. -/
def npSearchsortedL (xs : List EF) (q : EF) : Nat :=
  (xs.filter (fun v => EF.ltB v q)).length

/-- `scipy.interpolate.interp1d(x, y, kind="linear")` evaluated at the
query points `qs`: for each query the segment is selected by
`clip(searchsorted(x, q), 1, n-1)` and the value is
`y_lo + slope * (q - x_lo)`, exactly as scipy's `_evaluate_linear`
(NaN neighbours propagate through the slope). -/
def interp1dLinear (x y : List EF) (qs : List EF) : List EF :=
  let n := x.length
  qs.map fun q =>
    let hi := min (max (npSearchsortedL x q) 1) (n - 1)
    let lo := hi - 1
    let slope :=
      EF.div (EF.sub (y.getD hi EF.nan) (y.getD lo EF.nan))
        (EF.sub (x.getD hi EF.nan) (x.getD lo EF.nan))
    EF.add (EF.mul slope (EF.sub q (x.getD lo EF.nan))) (y.getD lo EF.nan)

/-- `smooth(x, window)` from `retracker.py`: numpy implementation of the IDL
SMOOTH function, `np.convolve(x, np.ones(window)/window, mode="same")`.
Entry `i` is the sum over the centred window
`k ∈ [i - window/2, i - window/2 + window - 1]` of `x[k] * (1/window)` with
zero extension outside the array (the absent terms of the convolution). -/
def smooth (x : List EF) (w : Nat) : List EF :=
  (List.range x.length).map fun (i : Nat) =>
    efSum ((List.range w).map fun (t : Nat) =>
      EF.mul (getZ x ((i : Int) - ((w / 2 : Nat) : Int) + (t : Int))) (EF.fin (1 / (w : ℚ))))

/-- The padded array `xpad` built by `bnsmooth`: `pad = (window-1)/2` zeros
in front of `x` and `window - pad` zeros behind (total length
`n + window`). -/
def bnpad (x : List EF) (w : Nat) : List EF :=
  List.replicate ((w - 1) / 2) (EF.fin 0) ++ x ++ List.replicate (w - (w - 1) / 2) (EF.fin 0)

/-- `bnsmooth(x, window)` from `retracker.py`: bottleneck implementation of
the IDL SMOOTH function.  The input is zero-padded into `bnpad`, then
`bn.move_mean` with the given window is taken and the slice
`[window-1 : window+n-1]` returned; entry `j` is therefore the mean of
`xpad[j .. j+window-1]` (NaN if the window contains a NaN, as `move_mean`
with the default `min_count` does). -/
def bnsmooth (x : List EF) (w : Nat) : List EF :=
  (List.range x.length).map fun j =>
    EF.div (efSum (((bnpad x w).drop j).take w)) (EF.fin (w : ℚ))

/-- `wfm_get_noise_level(wfm, oversample_factor)` from `retracker.py`:
`bn.nanmean(wfm[0:5*oversample_factor])`.  (The smoothing window plays no
role: the definition depends only on the first `5*k` bins.) -/
def wfm_get_noise_level (wfm : List EF) (oversample_factor : Nat) : EF :=
  bnNanmean (wfm.take (5 * oversample_factor))

/-- `findpeaks(data)` from `retracker.py` with the default `spacing=1`,
`limit=None` as used by the retrackers: the data is padded on both sides
with `data[0] - 1e-6` and `data[-1] - 1e-6`, and index `i` is a peak iff
its value is strictly greater than both neighbours in the padded array.
`none` models the `IndexError` raised by `data[0]` on an empty array
(caught by the caller). -/
def findpeaks (data : List EF) : Option (List Nat) :=
  match data with
  | [] => none
  | d0 :: _ =>
    let n := data.length
    let eps : EF := EF.fin (1 / 1000000)
    let x : Nat → EF := fun j =>
      if j = 0 then EF.sub d0 eps
      else if j = n + 1 then EF.sub (data.getD (n - 1) EF.nan) eps
      else data.getD (j - 1) EF.nan
    some ((List.range n).filter fun i =>
      EF.ltB (x i) (x (i + 1)) && EF.ltB (x (i + 2)) (x (i + 1)))

/-- `TFMRA.get_first_maximum_index(wfm, peak_minimum_power)` (identical in
`SICCI2TfmraEnvisat`): absolute maximum via `np.argmax`, relative maxima of
`wfm[0:absolute_maximum_index]` via `findpeaks` (an exception yields `-1`),
and the first relative maximum whose power is `≥ peak_minimum_power`, the
absolute maximum index if none qualifies. -/
def tfmra_get_first_maximum_index (wfm : List EF) (peak_minimum_power : EF) : Int :=
  match npArgmax wfm with
  | none => -1
  | some ami =>
    match findpeaks (wfm.take ami) with
    | none => -1
    | some peaks =>
      match peaks.filter (fun p => EF.leB peak_minimum_power (wfm.getD p EF.nan)) with
      | [] => (ami : Int)
      | p :: _ => (p : Int)

/-- Modelled from the spec: `cytfmra_findpeaks` of the missing cython module
`pysiral.bnfunc.cytfmra`.  Per §4.5 the optimized variant uses "faster
kernels" for an "identical contract and numerically equivalent algorithm",
so the kernel is modelled as semantically identical to the pure-python
`findpeaks` of `retracker.py`. -/
def cytfmra_findpeaks (data : List EF) : Option (List Nat) := findpeaks data

/-- `cTFMRA.get_first_maximum_index(wfm, peak_minimum_power)`: like the
reference version, but the absolute maximum is found with `bn.nanargmax`
(a `ValueError` on an all-NaN input yields `-1`) and the peak search window
is `wfm[0:absolute_maximum_index+1]`, one bin longer than the reference's
`wfm[0:absolute_maximum_index]`. -/
def ctfmra_get_first_maximum_index (wfm : List EF) (peak_minimum_power : EF) : Int :=
  match bnNanargmax wfm with
  | none => -1
  | some ami =>
    match cytfmra_findpeaks (wfm.take (ami + 1)) with
    | none => -1
    | some peaks =>
      match peaks.filter (fun p => EF.leB peak_minimum_power (wfm.getD p EF.nan)) with
      | [] => (ami : Int)
      | p :: _ => (p : Int)

/-- `np.where(wfm[:first_maximum_index] > tfmra_power)[0]`: the indices
before the first maximum whose power strictly exceeds the target power. -/
def pointsOf (wfm : List EF) (first_maximum_index : Nat) (tfmra_power : EF) : List Nat :=
  (List.range (min first_maximum_index wfm.length)).filter fun j =>
    EF.ltB tfmra_power (wfm.getD j EF.nan)

/-- `TFMRA.get_threshold_range(rng, wfm, first_maximum_index, threshold)`:
`tfmra_power = threshold * wfm[first_maximum_index]`; the retrack point is
`points[0]`, the FIRST index whose power exceeds `tfmra_power`; the range is
linearly interpolated between that index and its predecessor
(`i0 = points[0] - 1`, which python's negative indexing wraps to the last
bin when `points[0] = 0`). -/
def tfmra_get_threshold_range (rng wfm : List EF) (first_maximum_index : Nat)
    (threshold : EF) : EF × EF :=
  let first_maximum_power := wfm.getD first_maximum_index EF.nan
  let tfmra_power := EF.mul threshold first_maximum_power
  match pointsOf wfm first_maximum_index tfmra_power with
  | [] => (EF.nan, EF.nan)
  | p :: _ =>
    let i0 : Int := (p : Int) - 1
    let w1 := wfm.getD p EF.nan
    let w0 := pyGet wfm i0
    let r1 := rng.getD p EF.nan
    let r0 := pyGet rng i0
    let gradient := EF.div (EF.sub w1 w0) (EF.sub r1 r0)
    (EF.add (EF.div (EF.sub tfmra_power w0) gradient) r0, tfmra_power)

/-- `cTFMRA.get_threshold_range`: textually identical to
`TFMRA.get_threshold_range`. -/
def ctfmra_get_threshold_range (rng wfm : List EF) (first_maximum_index : Nat)
    (threshold : EF) : EF × EF :=
  let first_maximum_power := wfm.getD first_maximum_index EF.nan
  let tfmra_power := EF.mul threshold first_maximum_power
  match pointsOf wfm first_maximum_index tfmra_power with
  | [] => (EF.nan, EF.nan)
  | p :: _ =>
    let i0 : Int := (p : Int) - 1
    let w1 := wfm.getD p EF.nan
    let w0 := pyGet wfm i0
    let r1 := rng.getD p EF.nan
    let r0 := pyGet rng i0
    let gradient := EF.div (EF.sub w1 w0) (EF.sub r1 r0)
    (EF.add (EF.div (EF.sub tfmra_power w0) gradient) r0, tfmra_power)

/-- `np.diff(potential_points)` / `np.where(diff > 1)` / selection of
`potential_points[diff_points_gap[-1]+1]` in
`SICCI2TfmraEnvisat.get_threshold_range`: walking the ascending match list,
every gap (`successor - predecessor > 1`) moves the candidate to the element
after the gap, so the result is the first element of the LAST contiguous
run (`points[0]` when there is no gap). -/
def sicci2RetrackAux (cand prev : Nat) : List Nat → Nat
  | [] => cand
  | b :: rest => sicci2RetrackAux (if prev + 1 < b then b else cand) b rest

/-- `SICCI2TfmraEnvisat.get_threshold_range`: like the TFMRA version but the
retrack point is the starting index of the last contiguous run of samples
exceeding the target power. -/
def sicci2_get_threshold_range (rng wfm : List EF) (first_maximum_index : Nat)
    (threshold : EF) : EF × EF :=
  let first_maximum_power := wfm.getD first_maximum_index EF.nan
  let tfmra_power := EF.mul threshold first_maximum_power
  match pointsOf wfm first_maximum_index tfmra_power with
  | [] => (EF.nan, EF.nan)
  | p :: rest =>
    let rp := sicci2RetrackAux p p rest
    let i0 : Int := (rp : Int) - 1
    let w1 := wfm.getD rp EF.nan
    let w0 := pyGet wfm i0
    let r1 := rng.getD rp EF.nan
    let r0 := pyGet rng i0
    let gradient := EF.div (EF.sub w1 w0) (EF.sub r1 r0)
    (EF.add (EF.div (EF.sub tfmra_power w0) gradient) r0, tfmra_power)

/-- The per-granule Level-1 waveform data read by the retrackers
(`l1b.waveform.range/power/radar_mode/is_valid`).  `power` and `rng` are
`[n_records][n_bins]`; `radar_mode` holds the enum LRM=0 / SAR=1 / SIN=2. -/
structure L1bData where
  rng : List (List EF)
  power : List (List EF)
  radar_mode : List Nat
  is_valid : List Bool
deriving DecidableEq, Repr

/-- `l1b.n_records`. -/
def L1bData.n_records (l1b : L1bData) : Nat := l1b.power.length

/-- The mutable state of a `BaseRetracker` instance during `retrack`:
the (aliased, hence in principle mutable) L1b arrays and the per-record
result arrays `self._range`, `self._power`, `self._uncertainty`,
`self._flag`. -/
structure RState where
  l1b : L1bData
  rng_r : List EF
  pow_r : List EF
  unc_r : List EF
  flag_r : List Bool
deriving DecidableEq, Repr

/-- `BaseRetracker._create_default_properties(n_records)`: range/power are
all-NaN, uncertainty all zero, the error flag all false. -/
def default_state (l1b : L1bData) : RState :=
  { l1b := l1b
    rng_r := List.replicate l1b.n_records EF.nan
    pow_r := List.replicate l1b.n_records EF.nan
    unc_r := List.replicate l1b.n_records (EF.fin 0)
    flag_r := List.replicate l1b.n_records false }

/-- The tagged `threshold` option dictionary (`type` plus the fields the
recognized variants read; unused fields are simply ignored, as for the
attrdict in the source). -/
structure ThresholdCfg where
  type : String
  value : ℚ
  coef : List ℚ
  coef_fyi : List ℚ
  coef_myi : List ℚ
  intercept : ℚ
  coef_lew : List ℚ
  coef_sig0 : List ℚ
deriving DecidableEq, Repr

/-- The `threshold` option: either the legacy bare float or a tagged
dictionary. -/
inductive ThresholdOpt : Type where
  | flt : ℚ → ThresholdOpt
  | cfg : ThresholdCfg → ThresholdOpt
deriving DecidableEq, Repr

/-- Options of the reference `TFMRA` retracker (its `threshold` option is
read directly as a float in `l2_retrack`). -/
structure TfmraOptions where
  threshold : ℚ
  offset : ℚ
  wfm_oversampling_factor : Nat
  wfm_smoothing_window_size : List Nat
  first_maximum_normalized_threshold : List ℚ
  range_bias : Option (List ℚ)
deriving Repr

/-- Options of the optimized `cTFMRA` retracker. -/
structure CtfmraOptions where
  threshold : ThresholdOpt
  offset : ℚ
  wfm_oversampling_factor : Nat
  wfm_smoothing_window_size : List Nat
  first_maximum_normalized_threshold : List ℚ
  range_bias : Option (List ℚ)
  uncertainty_fixed : Option ℚ
deriving Repr

/-- Options of the `SICCI2TfmraEnvisat` retracker. -/
structure Sicci2Options where
  threshold : ThresholdOpt
  offset : ℚ
  wfm_oversampling_factor : Nat
  wfm_smoothing_window_size : List Nat
  first_maximum_normalized_threshold : List ℚ
  uncertainty_fixed : Option ℚ
deriving Repr

/-- Classifier channels (`sigma0`, `leading_edge_width`, `sitype`) consumed
by the adaptive threshold policies. -/
structure Classifiers where
  sigma0 : List EF
  lew : List EF
  sitype : List EF
deriving Repr

/-- One pass of `value += coef * base**i` array updates (elementwise
`value[j] += coef * base[j]**i`), iterating over the coefficient list with
ascending exponent, as the `for i, coef in enumerate(...)` loops of
`get_tfmra_threshold` do. -/
def polyArrGo (base : List EF) : List ℚ → Nat → List EF → List EF
  | [], _, acc => acc
  | c :: cs, i, acc =>
    polyArrGo base cs (i + 1)
      (List.zipWith (fun a s => EF.add a (EF.mul (EF.fin c) (EF.pow s i))) acc base)

/-- Pointwise specification of `polyArrGo`: the partial polynomial sum
`acc + Σ coef[t] * s^(i+t)` accumulated left-to-right. -/
def polyEvalFrom : List ℚ → Nat → EF → EF → EF
  | [], _, _, acc => acc
  | c :: cs, i, s, acc => polyEvalFrom cs (i + 1) s (EF.add acc (EF.mul (EF.fin c) (EF.pow s i)))

/-- `Σ coef[i] * s^i` accumulated from zero, the value the `sigma_func` /
`sitype_sigma_func` policies assign per record. -/
def polyEvalEF (coefs : List ℚ) (s : EF) : EF := polyEvalFrom coefs 0 s (EF.fin 0)

/-- `threshold[indices] = value[indices]` over an all-NaN array of length
`n` (numpy fancy-index assignment). -/
def maskToIndices (n : Nat) (indices : List Nat) (value : List EF) : List EF :=
  (List.range n).map fun j => if j ∈ indices then value.getD j EF.nan else EF.nan

/-- The common dispatch of `cTFMRA.get_tfmra_threshold` and
`SICCI2TfmraEnvisat.get_tfmra_threshold` (their bodies are identical up to
where the classifier arrays come from): an all-NaN threshold array of
length `n` filled at `indices` according to the policy, or the
`ValueError` raised for an unrecognized `type` tag. -/
def threshold_eval (opt : ThresholdOpt) (n : Nat) (indices : List Nat)
    (sigma0 lew sitype : List EF) : Except String (List EF) :=
  match opt with
  | .flt q =>
    -- legacy option where threshold is float in settings file
    .ok ((List.range n).map fun j => if j ∈ indices then EF.fin q else EF.nan)
  | .cfg c =>
    if c.type = "fixed" then
      .ok ((List.range n).map fun j => if j ∈ indices then EF.fin c.value else EF.nan)
    else if c.type = "sigma_func" then
      let value := polyArrGo sigma0 c.coef 0 (List.replicate sigma0.length (EF.fin 0))
      .ok (maskToIndices n indices value)
    else if c.type = "sitype_sigma_func" then
      let value := polyArrGo sigma0 c.coef_fyi 0 (List.replicate sigma0.length (EF.fin 0))
      let value_myi := polyArrGo sigma0 c.coef_myi 0 (List.replicate sigma0.length (EF.fin 0))
      -- value[np.where(sitype > 0.5)[0]] = value_myi[...]
      let merged := (List.range sigma0.length).map fun j =>
        if EF.ltB (EF.fin (1 / 2)) (sitype.getD j EF.nan) then value_myi.getD j EF.nan
        else value.getD j EF.nan
      .ok (maskToIndices n indices merged)
    else if c.type = "poly_plane_fit" then
      let v1 := polyArrGo lew c.coef_lew 1 (List.replicate sigma0.length (EF.fin c.intercept))
      let value := polyArrGo sigma0 c.coef_sig0 1 v1
      .ok (maskToIndices n indices value)
    else
      .error ("treshold type not recognized: " ++ c.type)

/-- `cTFMRA.get_tfmra_threshold(indices)`: the threshold array has the
shape of `l2.longitude`, i.e. `n_records`. -/
def ctfmra_get_tfmra_threshold (opt : ThresholdOpt) (n_records : Nat)
    (indices : List Nat) (cls : Classifiers) : Except String (List EF) :=
  threshold_eval opt n_records indices cls.sigma0 cls.lew cls.sitype

/-- `SICCI2TfmraEnvisat.get_tfmra_threshold(sigma0, lew, sitype, indices)`:
the threshold array has the shape of `sigma0`. -/
def sicci2_get_tfmra_threshold (opt : ThresholdOpt) (sigma0 lew sitype : List EF)
    (indices : List Nat) : Except String (List EF) :=
  threshold_eval opt sigma0.length indices sigma0 lew sitype

/-- Result of `get_filtered_wfm`: oversampled range bins, filtered and
normalized waveform, index of the first maximum (`-1` on failure) and the
normalization factor. -/
structure FiltResult where
  filt_rng : List EF
  filt_wfm : List EF
  fmi : Int
  norm : EF
deriving DecidableEq, Repr

/-- `TFMRA.filter_waveform(rng, wfm, radar_mode)` (identical in
`SICCI2TfmraEnvisat`): oversample onto
`np.linspace(nanmin(rng), nanmax(rng), n*oversampling)` with linear
`interp1d`, then `smooth` with the radar-mode dependent window. -/
def tfmra_filter_waveform (oversampling : Nat) (window_sizes : List Nat)
    (rng wfm : List EF) (radar_mode : Nat) : List EF × List EF :=
  let window_size := window_sizes.getD radar_mode 1
  let range_os := npLinspace (npNanmin rng) (npNanmax rng) (rng.length * oversampling)
  let wfm_os := interp1dLinear rng wfm range_os
  (range_os, smooth wfm_os window_size)

/-- Modelled from the spec: `cytfmra_interpolate` of the missing cython
module `pysiral.bnfunc.cytfmra`.  Spec §4.2 step 1: "resample `power` onto
`k·bins` uniformly spaced range points between `min(range)` and
`max(range)` using linear interpolation"; §4.5: the optimized kernels are
numerically equivalent to the reference ones.  (The `float32` casts at the
call site are identities in the exact rational model.) -/
def cytfmra_interpolate (rng wfm : List EF) (oversampling : Nat) : List EF × List EF :=
  let range_os := npLinspace (npNanmin rng) (npNanmax rng) (rng.length * oversampling)
  (range_os, interp1dLinear rng wfm range_os)

/-- `cTFMRA.filter_waveform(rng, wfm, radar_mode)`: the cython oversampling
kernel followed by `bnsmooth`. -/
def ctfmra_filter_waveform (oversampling : Nat) (window_sizes : List Nat)
    (rng wfm : List EF) (radar_mode : Nat) : List EF × List EF :=
  let window_size := window_sizes.getD radar_mode 1
  let (range_os, wfm_os) := cytfmra_interpolate rng wfm oversampling
  (range_os, bnsmooth wfm_os window_size)

/-- `TFMRA.normalize_wfm(y)`: divide by `np.nanmax(y)` and return the norm. -/
def tfmra_normalize_wfm (y : List EF) : List EF × EF :=
  let norm := npNanmax y
  (y.map (fun v => EF.div v norm), norm)

/-- Modelled from the spec: `cytfmra_normalize_wfm` of the missing cython
module.  Spec §4.2 step 3: "divide by the waveform's maximum value; record
the normalization factor"; modelled identically to `TFMRA.normalize_wfm`
(`bn.nanmax` agrees with `np.nanmax`). -/
def cytfmra_normalize_wfm (y : List EF) : List EF × EF :=
  let norm := npNanmax y
  (y.map (fun v => EF.div v norm), norm)

/-- Modelled from the spec: `cytfmra_wfm_noise_level` of the missing cython
module.  Spec §4.2 step 4: "mean power of the first `5·k` oversampled
bins"; modelled identically to `wfm_get_noise_level`. -/
def cytfmra_wfm_noise_level (wfm : List EF) (oversample_factor : Nat) : EF :=
  bnNanmean (wfm.take (5 * oversample_factor))

/-- `TFMRA.get_filtered_wfm(rng, wfm, radar_mode)` (identical in
`SICCI2TfmraEnvisat`). -/
def tfmra_get_filtered_wfm (oversampling : Nat) (window_sizes : List Nat)
    (fmnts : List ℚ) (rng wfm : List EF) (radar_mode : Nat) : FiltResult :=
  let (filt_rng, filt_wfm0) := tfmra_filter_waveform oversampling window_sizes rng wfm radar_mode
  let (filt_wfm, norm) := tfmra_normalize_wfm filt_wfm0
  let noise_level := wfm_get_noise_level filt_wfm oversampling
  let fmnt := fmnts.getD radar_mode 0
  let peak_minimum_power := EF.add (EF.fin fmnt) noise_level
  let fmi := tfmra_get_first_maximum_index filt_wfm peak_minimum_power
  ⟨filt_rng, filt_wfm, fmi, norm⟩

/-- `cTFMRA.get_filtered_wfm(rng, wfm, radar_mode)`. -/
def ctfmra_get_filtered_wfm (oversampling : Nat) (window_sizes : List Nat)
    (fmnts : List ℚ) (rng wfm : List EF) (radar_mode : Nat) : FiltResult :=
  let (filt_rng, filt_wfm0) := ctfmra_filter_waveform oversampling window_sizes rng wfm radar_mode
  let (filt_wfm, norm) := cytfmra_normalize_wfm filt_wfm0
  let noise_level := cytfmra_wfm_noise_level filt_wfm oversampling
  let fmnt := fmnts.getD radar_mode 0
  let peak_minimum_power := EF.add (EF.fin fmnt) noise_level
  let fmi := ctfmra_get_first_maximum_index filt_wfm peak_minimum_power
  ⟨filt_rng, filt_wfm, fmi, norm⟩

/-- The body of the per-index loop of `TFMRA.l2_retrack` for one waveform:
`none` when the first-maximum finder returned `-1` (the caller then writes
NaN to range and power and RETURNS, aborting the loop), otherwise the pair
written to `self._range[i]` / `self._power[i]`
(`tfmra_range + offset`, `tfmra_power * norm`). -/
def tfmra_record (opts : TfmraOptions) (rng wfm : List EF) (radar_mode : Nat) :
    Option (EF × EF) :=
  let F := tfmra_get_filtered_wfm opts.wfm_oversampling_factor
    opts.wfm_smoothing_window_size opts.first_maximum_normalized_threshold rng wfm radar_mode
  if F.fmi = -1 then none
  else
    let r := tfmra_get_threshold_range F.filt_rng F.filt_wfm F.fmi.toNat (EF.fin opts.threshold)
    some (EF.add r.1 (EF.fin opts.offset), EF.mul r.2 F.norm)

/-- The body of the per-index loop of `cTFMRA.l2_retrack` for one waveform
(threshold taken from the per-record threshold array): `none` when the
first-maximum finder returned `-1` (the caller then writes NaN and
CONTINUES with the next index). -/
def ctfmra_record (opts : CtfmraOptions) (threshold_i : EF) (rng wfm : List EF)
    (radar_mode : Nat) : Option (EF × EF) :=
  let F := ctfmra_get_filtered_wfm opts.wfm_oversampling_factor
    opts.wfm_smoothing_window_size opts.first_maximum_normalized_threshold rng wfm radar_mode
  if F.fmi = -1 then none
  else
    let r := ctfmra_get_threshold_range F.filt_rng F.filt_wfm F.fmi.toNat threshold_i
    some (EF.add r.1 (EF.fin opts.offset), EF.mul r.2 F.norm)

/-- The `for i in indices` loop of `TFMRA.l2_retrack`.  On a failed
first-maximum search the function executes `return`: range and power at
that index are set to NaN and the REMAINING INDICES ARE NOT PROCESSED. -/
def tfmra_loop (opts : TfmraOptions) : RState → List Nat → RState
  | st, [] => st
  | st, i :: rest =>
    match tfmra_record opts (st.l1b.rng.getD i []) (st.l1b.power.getD i [])
        (st.l1b.radar_mode.getD i 0) with
    | none =>
      { st with rng_r := st.rng_r.set i EF.nan, pow_r := st.pow_r.set i EF.nan }
    | some (r, p) =>
      tfmra_loop opts
        { st with rng_r := st.rng_r.set i r, pow_r := st.pow_r.set i p } rest

/-- The `for i in indices` loop of `cTFMRA.l2_retrack`: waveforms with
`is_valid[i]` false are skipped, and a failed first-maximum search writes
NaN and CONTINUES with the remaining indices. -/
def ctfmra_loop (opts : CtfmraOptions) (thresholds : List EF) :
    RState → List Nat → RState
  | st, [] => st
  | st, i :: rest =>
    if st.l1b.is_valid.getD i true = false then ctfmra_loop opts thresholds st rest
    else
      match ctfmra_record opts (thresholds.getD i EF.nan) (st.l1b.rng.getD i [])
          (st.l1b.power.getD i []) (st.l1b.radar_mode.getD i 0) with
      | none =>
        ctfmra_loop opts thresholds
          { st with rng_r := st.rng_r.set i EF.nan, pow_r := st.pow_r.set i EF.nan } rest
      | some (r, p) =>
        ctfmra_loop opts thresholds
          { st with rng_r := st.rng_r.set i r, pow_r := st.pow_r.set i p } rest

/-- The radar-mode dependent range-bias block shared by `TFMRA.l2_retrack`
and `cTFMRA.l2_retrack`: for each radar mode index `m ∈ {0,1,2}` subtract
`range_bias[m]` from `self._range` at ALL records of that radar mode. -/
def bias_pass (m : Nat) (b : ℚ) (radar_mode : List Nat) (r : List EF) : List EF :=
  r.mapIdx fun j v => if radar_mode.getD j 3 = m then EF.sub v (EF.fin b) else v

/-- `for radar_mode_index in np.arange(3): ...` of the range-bias block. -/
def apply_range_bias (bias : List ℚ) (radar_mode : List Nat) (r : List EF) : List EF :=
  bias_pass 2 (bias.getD 2 0) radar_mode
    (bias_pass 1 (bias.getD 1 0) radar_mode
      (bias_pass 0 (bias.getD 0 0) radar_mode r))

/-- `TFMRA.l2_retrack(rng, wfm, indices, radar_mode, is_valid)`: the
per-index loop followed by the optional range-bias block.  (TFMRA has no
`uncertainty` block and never touches `self._flag`.) -/
def tfmra_l2_retrack (opts : TfmraOptions) (st : RState) (indices : List Nat) : RState :=
  let st1 := tfmra_loop opts st indices
  match opts.range_bias with
  | none => st1
  | some bias => { st1 with rng_r := apply_range_bias bias st1.l1b.radar_mode st1.rng_r }

/-- `cTFMRA.l2_retrack`: the per-record threshold array is computed FIRST
(an unrecognized policy tag raises here, before any record is processed);
then the loop, the optional range-bias block and the optional fixed
uncertainty fill (`self._uncertainty[:] = value`).  (cTFMRA never touches
`self._flag`.) -/
def ctfmra_l2_retrack (opts : CtfmraOptions) (cls : Classifiers) (st : RState)
    (indices : List Nat) : Except String RState :=
  match ctfmra_get_tfmra_threshold opts.threshold st.l1b.n_records indices cls with
  | .error e => .error e
  | .ok thresholds =>
    let st1 := ctfmra_loop opts thresholds st indices
    let st2 :=
      match opts.range_bias with
      | none => st1
      | some bias => { st1 with rng_r := apply_range_bias bias st1.l1b.radar_mode st1.rng_r }
    .ok (match opts.uncertainty_fixed with
      | none => st2
      | some u => { st2 with unc_r := List.replicate st2.unc_r.length (EF.fin u) })

/-- `wfm_skipped = wfm[i, :]; wfm_skipped[0:5] = 0` in
`SICCI2TfmraEnvisat.l2_retrack`: numpy slicing returns a VIEW, so zeroing
the first five bins writes through to the input power array. -/
def zero_first_five (row : List EF) : List EF :=
  row.mapIdx fun j v => if j < 5 then EF.fin 0 else v

/-- The `for i in indices` loop of `SICCI2TfmraEnvisat.l2_retrack`: the
first five bins of the record's power waveform are zeroed IN PLACE (the
mutation is visible in the returned `l1b`), then the filtered waveform is
computed; a failed first-maximum search writes NaN and RETURNS. -/
def sicci2_loop (opts : Sicci2Options) (thresholds : List EF) :
    RState → List Nat → RState
  | st, [] => st
  | st, i :: rest =>
    let row := zero_first_five (st.l1b.power.getD i [])
    let st' := { st with l1b := { st.l1b with power := st.l1b.power.set i row } }
    let F := tfmra_get_filtered_wfm opts.wfm_oversampling_factor
      opts.wfm_smoothing_window_size opts.first_maximum_normalized_threshold
      (st'.l1b.rng.getD i []) row (st'.l1b.radar_mode.getD i 0)
    if F.fmi = -1 then
      { st' with rng_r := st'.rng_r.set i EF.nan, pow_r := st'.pow_r.set i EF.nan }
    else
      let r := sicci2_get_threshold_range F.filt_rng F.filt_wfm F.fmi.toNat
        (thresholds.getD i EF.nan)
      sicci2_loop opts thresholds
        { st' with
          rng_r := st'.rng_r.set i (EF.add r.1 (EF.fin opts.offset))
          pow_r := st'.pow_r.set i (EF.mul r.2 F.norm) } rest

/-- `SICCI2TfmraEnvisat.l2_retrack`: `lew = lew1 + lew2` is formed from the
two leading-edge-width classifiers, the threshold array is computed (shape
of `sigma0`), then the loop and the optional fixed uncertainty fill. -/
def sicci2_l2_retrack (opts : Sicci2Options) (sigma0 lew1 lew2 sitype : List EF)
    (st : RState) (indices : List Nat) : Except String RState :=
  let lew := List.zipWith EF.add lew1 lew2
  match sicci2_get_tfmra_threshold opts.threshold sigma0 lew sitype indices with
  | .error e => .error e
  | .ok thresholds =>
    let st1 := sicci2_loop opts thresholds st indices
    .ok (match opts.uncertainty_fixed with
      | none => st1
      | some u => { st1 with unc_r := List.replicate st1.unc_r.length (EF.fin u) })

/-- `BaseRetracker.retrack(l1b, l2)` specialised to `TFMRA`: create the
default result arrays, default the index set to all records, return
`false` without retracking when it is empty, otherwise run `l2_retrack`. -/
def tfmra_retrack (opts : TfmraOptions) (l1b : L1bData)
    (indices : Option (List Nat)) : Bool × RState :=
  let st := default_state l1b
  let idx := indices.getD (List.range l1b.n_records)
  if idx.isEmpty then (false, st)
  else (true, tfmra_l2_retrack opts st idx)

/-- `BaseRetracker.retrack` specialised to `cTFMRA`. -/
def ctfmra_retrack (opts : CtfmraOptions) (cls : Classifiers) (l1b : L1bData)
    (indices : Option (List Nat)) : Except String (Bool × RState) :=
  let st := default_state l1b
  let idx := indices.getD (List.range l1b.n_records)
  if idx.isEmpty then .ok (false, st)
  else
    match ctfmra_l2_retrack opts cls st idx with
    | .error e => .error e
    | .ok st' => .ok (true, st')

/-- `BaseRetracker.retrack` specialised to `SICCI2TfmraEnvisat`. -/
def sicci2_retrack (opts : Sicci2Options) (sigma0 lew1 lew2 sitype : List EF)
    (l1b : L1bData) (indices : Option (List Nat)) : Except String (Bool × RState) :=
  let st := default_state l1b
  let idx := indices.getD (List.range l1b.n_records)
  if idx.isEmpty then .ok (false, st)
  else
    match sicci2_l2_retrack opts sigma0 lew1 lew2 sitype st idx with
    | .error e => .error e
    | .ok st' => .ok (true, st')

/-! ## Concrete inputs used by witnesses and counterexamples -/

/-- Range axis `[0, 1, 2, 3, 4, 5]`. -/
def rngSix : List EF := [EF.fin 0, EF.fin 1, EF.fin 2, EF.fin 3, EF.fin 4, EF.fin 5]

/-- A waveform with two contiguous runs above half of its first-maximum
power (`[1, 3, 1, 3, 4, 5]`, first maximum at bin 5): the runs above
`2.5` before bin 5 are `{1}` and `{3, 4}`. -/
def wfmTwoRuns : List EF := [EF.fin 1, EF.fin 3, EF.fin 1, EF.fin 3, EF.fin 4, EF.fin 5]

/-- An all-NaN waveform record (six bins). -/
def wfmAllNan : List EF := List.replicate 6 EF.nan

/-- A well-behaved waveform record: ramp up to a peak at bin 3. -/
def wfmRamp : List EF := [EF.fin 0, EF.fin 1, EF.fin 2, EF.fin 3, EF.fin 2, EF.fin 1]

/-- Two-record granule: record 0 is all-NaN (first-maximum search fails),
record 1 retracks normally. -/
def l1bNanThenRamp : L1bData := ⟨[rngSix, rngSix], [wfmAllNan, wfmRamp], [0, 0], [true, true]⟩

/-- Reference-variant options used by the witnesses: threshold `0.5`,
offset `0`, no oversampling (`k = 1`), window `1` for every radar mode,
first-maximum thresholds `[.15, .15, .45]`, no range bias. -/
def toptsW : TfmraOptions := ⟨1/2, 0, 1, [1, 1, 1], [3/20, 3/20, 9/20], none⟩

/-- Optimized-variant options matching `toptsW` (legacy float threshold). -/
def coptsW : CtfmraOptions := ⟨.flt (1/2), 0, 1, [1, 1, 1], [3/20, 3/20, 9/20], none, none⟩

/-- Empty classifier set (the legacy float threshold policy reads none). -/
def clsW : Classifiers := ⟨[], [], []⟩

/-- Range axis `[0, ..., 7]`. -/
def rngEight : List EF :=
  [EF.fin 0, EF.fin 1, EF.fin 2, EF.fin 3, EF.fin 4, EF.fin 5, EF.fin 6, EF.fin 7]

/-- A waveform whose leading-edge peak (bin 6, power 0.9) is adjacent to
the absolute maximum (bin 7): the reference peak search over
`wfm[0:argmax]` finds it, the optimized search over `wfm[0:argmax+1]`
cannot (bin 6 is not a local maximum there since `0.9 < 1`). -/
def wfmAdjPeak : List EF :=
  [EF.fin 0, EF.fin 0, EF.fin 0, EF.fin 0, EF.fin 0, EF.fin (3/5), EF.fin (9/10), EF.fin 1]

/-- One-record granule built from `wfmAdjPeak`: a valid record on which the
reference and optimized variants select different first maxima. -/
def l1bAdjPeak : L1bData := ⟨[rngEight], [wfmAdjPeak], [0], [true]⟩

/-- A record whose first five bins are non-zero, exposing the in-place
`wfm[i, 0:5] = 0` mutation of `SICCI2TfmraEnvisat.l2_retrack`. -/
def wfmFlatTail : List EF := [EF.fin 1, EF.fin 1, EF.fin 1, EF.fin 1, EF.fin 1, EF.fin 2]

/-- One-record granule built from `wfmFlatTail`. -/
def l1bFlatTail : L1bData := ⟨[rngSix], [wfmFlatTail], [0], [true]⟩

/-- SICCI2 options matching `toptsW` (legacy float threshold). -/
def soptsW : Sicci2Options := ⟨.flt (1/2), 0, 1, [1, 1, 1], [3/20, 3/20, 9/20], none⟩

/-! ## Helper lemmas -/

theorem EF.add_mul_fin_pos (a b : EF) (c : ℚ) (hc : 0 < c) :
    EF.mul (EF.add a b) (EF.fin c) = EF.add (EF.mul a (EF.fin c)) (EF.mul b (EF.fin c)) := by
  cases a <;> cases b <;>
    simp [EF.add, EF.mul, hc, not_lt.mpr (le_of_lt hc), add_mul]

theorem EF.div_fin_pos_eq_mul (v : EF) (q : ℚ) (hq : 0 < q) :
    EF.div v (EF.fin q) = EF.mul v (EF.fin (1 / q)) := by
  have h1 : (0:ℚ) < 1 / q := by positivity
  cases v with
  | nan => simp [EF.div, EF.mul]
  | pinf => simp [EF.div, EF.mul, le_of_lt hq, hq, h1]
  | ninf => simp [EF.div, EF.mul, le_of_lt hq, hq, h1]
  | fin a =>
    simp only [EF.div, EF.mul, if_neg (ne_of_gt hq)]
    rw [div_eq_mul_one_div]

theorem efSum_foldl_map_mul_fin_pos (l : List EF) (acc : EF) (c : ℚ) (hc : 0 < c) :
    List.foldl EF.add (EF.mul acc (EF.fin c)) (l.map (fun v => EF.mul v (EF.fin c))) =
      EF.mul (List.foldl EF.add acc l) (EF.fin c) := by
  induction l generalizing acc with
  | nil => simp
  | cons a t ih =>
    simp only [List.map_cons, List.foldl_cons]
    rw [← EF.add_mul_fin_pos acc a c hc, ih]

theorem efSum_map_mul_fin_pos (l : List EF) (c : ℚ) (hc : 0 < c) :
    efSum (l.map (fun v => EF.mul v (EF.fin c))) = EF.mul (efSum l) (EF.fin c) := by
  have h := efSum_foldl_map_mul_fin_pos l (EF.fin 0) c hc
  rw [show EF.mul (EF.fin 0) (EF.fin c) = EF.fin 0 by simp [EF.mul]] at h
  unfold efSum
  exact h

theorem bnpad_getElem? (x : List EF) (w m : Nat) (hm : m < x.length + w) (hw : 1 ≤ w) :
    (bnpad x w)[m]? = some (getZ x ((m : Int) - ((w - 1) / 2 : Nat))) := by
  have hpadlt : (w - 1) / 2 < w := by omega
  unfold bnpad
  by_cases h1 : m < (w - 1) / 2
  · rw [List.getElem?_append,
      if_pos (by simp only [List.length_append, List.length_replicate]; omega),
      List.getElem?_append, if_pos (by simp only [List.length_replicate]; omega),
      List.getElem?_replicate, if_pos h1]
    unfold getZ
    rw [if_neg (by push_cast; omega)]
  · by_cases h2 : m < (w - 1) / 2 + x.length
    · rw [List.getElem?_append,
        if_pos (by simp only [List.length_append, List.length_replicate]; omega),
        List.getElem?_append, if_neg (by simp only [List.length_replicate]; omega)]
      simp only [List.length_replicate]
      rw [List.getElem?_eq_getElem (show m - (w - 1) / 2 < x.length by omega)]
      unfold getZ
      rw [if_pos (by constructor <;> (push_cast; omega))]
      have ht : ((m : Int) - ((w - 1) / 2 : Nat)).toNat = m - (w - 1) / 2 := by omega
      rw [ht, List.getD_eq_getElem?_getD,
        List.getElem?_eq_getElem (show m - (w - 1) / 2 < x.length by omega)]
      simp
    · rw [List.getElem?_append,
        if_neg (by simp only [List.length_append, List.length_replicate]; omega)]
      simp only [List.length_append, List.length_replicate]
      rw [List.getElem?_replicate, if_pos (by omega)]
      unfold getZ
      rw [if_neg (by push_cast; omega)]

theorem bn_window_eq (x : List EF) (w j : Nat) (hw : w % 2 = 1) (hj : j < x.length) :
    ((bnpad x w).drop j).take w =
      (List.range w).map fun (t : Nat) => getZ x ((j : Int) - ((w / 2 : Nat) : Int) + (t : Int)) := by
  have hw1 : 1 ≤ w := by omega
  apply List.ext_getElem?
  intro t
  by_cases ht : t < w
  · rw [List.getElem?_take, if_pos ht, List.getElem?_drop,
      bnpad_getElem? x w (j + t) (by omega) hw1,
      List.getElem?_map, List.getElem?_range ht]
    rw [Option.map_some']
    congr 1
    congr 1
    have : (w - 1) / 2 = w / 2 := by omega
    rw [this]
    push_cast
    ring
  · rw [List.getElem?_take, if_neg ht, List.getElem?_map,
      List.getElem?_eq_none (by simpa using by omega : (List.range w).length ≤ t)]
    rfl

theorem bnsmooth_eq_smooth (x : List EF) (w : Nat) (hw : w % 2 = 1) :
    bnsmooth x w = smooth x w := by
  unfold bnsmooth smooth
  apply List.map_congr_left
  intro j hj
  have hjlt : j < x.length := List.mem_range.mp hj
  have hwq : (0:ℚ) < (w : ℚ) := by
    have : 1 ≤ w := by omega
    exact_mod_cast this
  rw [bn_window_eq x w j hw hjlt,
    EF.div_fin_pos_eq_mul _ _ hwq,
    ← efSum_map_mul_fin_pos _ _ (by positivity), List.map_map]
  rfl

theorem tfmra_loop_l1b (opts : TfmraOptions) (st : RState) (l : List Nat) :
    (tfmra_loop opts st l).l1b = st.l1b := by
  induction l generalizing st with
  | nil => rfl
  | cons i rest ih =>
    unfold tfmra_loop
    cases tfmra_record opts (st.l1b.rng.getD i []) (st.l1b.power.getD i [])
        (st.l1b.radar_mode.getD i 0) with
    | none => rfl
    | some rp => exact ih _

theorem tfmra_loop_flag (opts : TfmraOptions) (st : RState) (l : List Nat) :
    (tfmra_loop opts st l).flag_r = st.flag_r := by
  induction l generalizing st with
  | nil => rfl
  | cons i rest ih =>
    unfold tfmra_loop
    cases tfmra_record opts (st.l1b.rng.getD i []) (st.l1b.power.getD i [])
        (st.l1b.radar_mode.getD i 0) with
    | none => rfl
    | some rp => exact ih _

theorem ctfmra_loop_l1b (opts : CtfmraOptions) (thr : List EF) (st : RState) (l : List Nat) :
    (ctfmra_loop opts thr st l).l1b = st.l1b := by
  induction l generalizing st with
  | nil => rfl
  | cons i rest ih =>
    unfold ctfmra_loop
    by_cases hv : st.l1b.is_valid.getD i true = false
    · rw [if_pos hv]; exact ih st
    · rw [if_neg hv]
      cases ctfmra_record opts (thr.getD i EF.nan) (st.l1b.rng.getD i [])
          (st.l1b.power.getD i []) (st.l1b.radar_mode.getD i 0) with
      | none => exact ih _
      | some rp => exact ih _

theorem ctfmra_loop_flag (opts : CtfmraOptions) (thr : List EF) (st : RState) (l : List Nat) :
    (ctfmra_loop opts thr st l).flag_r = st.flag_r := by
  induction l generalizing st with
  | nil => rfl
  | cons i rest ih =>
    unfold ctfmra_loop
    by_cases hv : st.l1b.is_valid.getD i true = false
    · rw [if_pos hv]; exact ih st
    · rw [if_neg hv]
      cases ctfmra_record opts (thr.getD i EF.nan) (st.l1b.rng.getD i [])
          (st.l1b.power.getD i []) (st.l1b.radar_mode.getD i 0) with
      | none => exact ih _
      | some rp => exact ih _

theorem sicci2_loop_flag (opts : Sicci2Options) (thr : List EF) (st : RState) (l : List Nat) :
    (sicci2_loop opts thr st l).flag_r = st.flag_r := by
  induction l generalizing st with
  | nil => rfl
  | cons i rest ih =>
    unfold sicci2_loop
    simp only []
    split
    · rfl
    · exact ih _

theorem getD_range_map (n j : Nat) (f : Nat → EF) (hj : j < n) :
    (((List.range n).map f).getD j EF.nan) = f j := by
  rw [List.getD_eq_getElem?_getD, List.getElem?_map, List.getElem?_range hj]
  rfl

theorem range_filter_head (m : Nat) (f : Nat → Bool) :
    ∀ p rest, (List.range m).filter f = p :: rest →
      f p = true ∧ ∀ j, j < p → f j = false := by
  induction m with
  | zero => intro p rest h; simp at h
  | succ m ih =>
    intro p rest h
    rw [List.range_succ, List.filter_append] at h
    cases hm : (List.range m).filter f with
    | cons q qrest =>
      rw [hm, List.cons_append] at h
      injection h with h1 h2
      subst h1
      exact ih q qrest hm
    | nil =>
      rw [hm, List.nil_append] at h
      have hall : ∀ j, j < m → f j = false := by
        intro j hj
        have := List.filter_eq_nil_iff.mp hm j (List.mem_range.mpr hj)
        simpa using this
      by_cases hfm : f m
      · rw [List.filter_cons, if_pos hfm, List.filter_nil] at h
        injection h with h1 h2
        subst h1
        exact ⟨hfm, hall⟩
      · rw [List.filter_cons, if_neg hfm, List.filter_nil] at h
        simp at h

theorem getD_fin_lt (xs : List EF) (i : Nat) (q : ℚ) (h : xs.getD i EF.nan = EF.fin q) :
    i < xs.length := by
  by_contra hc
  rw [List.getD_eq_default _ _ (by omega)] at h
  exact absurd h (by simp)

theorem EF.sub_eq_fin_zero (a b : EF) (h : EF.sub a b = EF.fin 0) :
    ∃ q, a = EF.fin q ∧ b = EF.fin q := by
  cases a with
  | fin qa =>
    cases b with
    | fin qb =>
      have hq : qa + -qb = 0 := by simpa [EF.sub, EF.add, EF.neg] using h
      exact ⟨qb, by rw [show qa = qb by linarith], rfl⟩
    | nan => simp [EF.sub, EF.add, EF.neg] at h
    | pinf => simp [EF.sub, EF.add, EF.neg] at h
    | ninf => simp [EF.sub, EF.add, EF.neg] at h
  | nan => simp [EF.sub, EF.add, EF.neg] at h
  | pinf => cases b <;> simp [EF.sub, EF.add, EF.neg] at h
  | ninf => cases b <;> simp [EF.sub, EF.add, EF.neg] at h

theorem pyGet_sub_one (xs : List EF) (p : Nat) (hp : 1 ≤ p) (h : p - 1 < xs.length) :
    pyGet xs ((p : Int) - 1) = xs.getD (p - 1) EF.nan := by
  unfold pyGet
  simp only []
  rw [if_pos (show (0:Int) ≤ (p : Int) - 1 by omega)]
  rw [if_pos (⟨by omega, by omega⟩ : (0:Int) ≤ (p : Int) - 1 ∧ (p : Int) - 1 < (xs.length : Int))]
  congr 1
  omega

theorem polyArrGo_length (base : List EF) (cs : List ℚ) (i : Nat) (acc : List EF)
    (hl : acc.length = base.length) : (polyArrGo base cs i acc).length = base.length := by
  induction cs generalizing i acc with
  | nil => simpa [polyArrGo] using hl
  | cons c t ih =>
    unfold polyArrGo
    rw [ih (i + 1) _ (by rw [List.length_zipWith]; omega)]

theorem polyArrGo_getD (base : List EF) (cs : List ℚ) (j : Nat) (hj : j < base.length) :
    ∀ i (acc : List EF), acc.length = base.length →
      (polyArrGo base cs i acc).getD j EF.nan =
        polyEvalFrom cs i (base.getD j EF.nan) (acc.getD j EF.nan) := by
  induction cs with
  | nil => intro i acc _; rfl
  | cons c t ih =>
    intro i acc hl
    unfold polyArrGo polyEvalFrom
    rw [ih (i + 1) _ (by rw [List.length_zipWith]; omega)]
    congr 1
    have hjz : j < (List.zipWith (fun a s => EF.add a (EF.mul (EF.fin c) (EF.pow s i))) acc base).length := by
      rw [List.length_zipWith]; omega
    rw [List.getD_eq_getElem?_getD, List.getElem?_eq_getElem hjz, List.getElem_zipWith]
    rw [List.getD_eq_getElem?_getD, List.getElem?_eq_getElem (show j < acc.length by omega)]
    rw [List.getD_eq_getElem?_getD, List.getElem?_eq_getElem hj]
    rfl

theorem foldl_add_map_fin (qs : List ℚ) (a : ℚ) :
    List.foldl EF.add (EF.fin a) (qs.map EF.fin) = EF.fin (a + qs.sum) := by
  induction qs generalizing a with
  | nil => simp
  | cons q t ih =>
    simp only [List.map_cons, List.foldl_cons, List.sum_cons]
    rw [show EF.add (EF.fin a) (EF.fin q) = EF.fin (a + q) from rfl, ih]
    ring_nf

theorem efSum_map_fin (qs : List ℚ) : efSum (qs.map EF.fin) = EF.fin qs.sum := by
  unfold efSum
  rw [foldl_add_map_fin]
  ring_nf

theorem list_sum_all_eq (l : List ℚ) (c : ℚ) (h : ∀ q ∈ l, q = c) :
    l.sum = l.length * c := by
  induction l with
  | nil => simp
  | cons a t ih =>
    simp only [List.sum_cons, List.length_cons]
    rw [h a (by simp), ih (fun x hx => h x (List.mem_cons_of_mem _ hx))]
    push_cast
    ring

/-! ## Claim theorems -/

/-- C1: the spec mandates that `get_threshold_range` select the starting
index of the LAST contiguous run of samples exceeding the target power and
interpolate between it and its predecessor.  On the waveform
`[1, 3, 1, 3, 4, 5]` with first maximum 5 and threshold 0.5 the target
power is `2.5`, the matches before the first maximum are `[1, 3, 4]`
(two runs, `{1}` and `{3, 4}`), and the last run starts at index 3.
`SICCI2TfmraEnvisat.get_threshold_range` implements the rule (range
`11/4`); `TFMRA.get_threshold_range` and `cTFMRA.get_threshold_range`
instead interpolate at `points[0] = 1`, the start of the FIRST run (range
`3/4`) — the deviation §9 of the spec instructs to treat as a bug. -/
theorem claim_c1_last_run_rule_failing_input :
    pointsOf wfmTwoRuns 5 (EF.mul (EF.fin (1/2)) (wfmTwoRuns.getD 5 EF.nan)) = [1, 3, 4] ∧
    sicci2RetrackAux 1 1 [3, 4] = 3 ∧
    sicci2_get_threshold_range rngSix wfmTwoRuns 5 (EF.fin (1/2)) =
      (EF.fin (11/4), EF.fin (5/2)) ∧
    tfmra_get_threshold_range rngSix wfmTwoRuns 5 (EF.fin (1/2)) =
      (EF.fin (3/4), EF.fin (5/2)) ∧
    ctfmra_get_threshold_range rngSix wfmTwoRuns 5 (EF.fin (1/2)) =
      (EF.fin (3/4), EF.fin (5/2)) ∧
    EF.fin (3/4) ≠ EF.fin (11/4) := by
  with_unfolding_all decide

/-- C9, counterexample: the claim says a zero range difference makes
`get_threshold_range` return NaN.  On `rng = [0,0,0]`, `wfm = [1,2,3]`,
first maximum 2, threshold 0.5 the crossing is at index 1 with
predecessor 0, the range difference is zero, the power gradient is `+inf`,
and the function returns the FINITE range `rng[0] = 0` (not NaN, not an
infinity, no error). -/
theorem claim_c9_counterexample :
    tfmra_get_threshold_range [EF.fin 0, EF.fin 0, EF.fin 0]
        [EF.fin 1, EF.fin 2, EF.fin 3] 2 (EF.fin (1/2)) = (EF.fin 0, EF.fin (3/2)) ∧
    (EF.fin 0).isNan = false := by
  with_unfolding_all decide

/-- C10: on `rng = [0,1,2]`, `wfm = [1,0,2]`, first maximum 2, threshold
0.25 the first (and only) sample exceeding the target power `0.5` is at
filtered index 0, so the predecessor index is `-1`; python's negative
indexing wraps it to the LAST bin, and `get_threshold_range` (both the
reference and the optimized variant) interpolates between the last bin and
bin 0, returning the finite trailing-edge-derived range `-1` instead of
failing, returning NaN, or raising. -/
theorem claim_c10_negative_index_wraparound :
    pointsOf [EF.fin 1, EF.fin 0, EF.fin 2] 2
        (EF.mul (EF.fin (1/4)) (([EF.fin 1, EF.fin 0, EF.fin 2] : List EF).getD 2 EF.nan)) = [0] ∧
    pyGet [EF.fin 1, EF.fin 0, EF.fin 2] (-1) =
      ([EF.fin 1, EF.fin 0, EF.fin 2] : List EF).getD 2 EF.nan ∧
    tfmra_get_threshold_range [EF.fin 0, EF.fin 1, EF.fin 2]
        [EF.fin 1, EF.fin 0, EF.fin 2] 2 (EF.fin (1/4)) = (EF.fin (-1), EF.fin (1/2)) ∧
    ctfmra_get_threshold_range [EF.fin 0, EF.fin 1, EF.fin 2]
        [EF.fin 1, EF.fin 0, EF.fin 2] 2 (EF.fin (1/4)) = (EF.fin (-1), EF.fin (1/2)) ∧
    EF.add (EF.div (EF.sub (EF.fin (1/2)) (pyGet [EF.fin 1, EF.fin 0, EF.fin 2] (-1)))
        (EF.div (EF.sub (([EF.fin 1, EF.fin 0, EF.fin 2] : List EF).getD 0 EF.nan)
            (pyGet [EF.fin 1, EF.fin 0, EF.fin 2] (-1)))
          (EF.sub (([EF.fin 0, EF.fin 1, EF.fin 2] : List EF).getD 0 EF.nan)
            (pyGet [EF.fin 0, EF.fin 1, EF.fin 2] (-1)))))
      (pyGet [EF.fin 0, EF.fin 1, EF.fin 2] (-1)) = EF.fin (-1) ∧
    (EF.fin (-1)).isNan = false := by
  with_unfolding_all decide

/-- C9, amended: `get_threshold_range` never raises (it is a total
function); when the selected crossing index `points[0]` has a non-negative
predecessor, a ZERO POWER GRADIENT CANNOT OCCUR — the crossing sample
strictly exceeds the target power while its predecessor does not, so the
power difference is never `fin 0`; and when the RANGE difference is zero
(with finite target power and samples), the interpolation returns the
finite predecessor range `rng[i0]` together with the target power — not
NaN, not an infinity, and without error. -/
theorem claim_c9_zero_gradient_behaviour (rng wfm : List EF) (fmi : Nat) (thr : EF)
    (p : Nat) (rest : List Nat)
    (hpts : pointsOf wfm fmi (EF.mul thr (wfm.getD fmi EF.nan)) = p :: rest)
    (hp : 1 ≤ p) :
    EF.sub (wfm.getD p EF.nan) (wfm.getD (p - 1) EF.nan) ≠ EF.fin 0 ∧
    (∀ r t w0 w1 : ℚ,
      rng.getD (p - 1) EF.nan = EF.fin r → rng.getD p EF.nan = EF.fin r →
      EF.mul thr (wfm.getD fmi EF.nan) = EF.fin t →
      wfm.getD (p - 1) EF.nan = EF.fin w0 → wfm.getD p EF.nan = EF.fin w1 →
      tfmra_get_threshold_range rng wfm fmi thr = (EF.fin r, EF.fin t)) := by
  have hrf := range_filter_head (min fmi wfm.length)
    (fun j => EF.ltB (EF.mul thr (wfm.getD fmi EF.nan)) (wfm.getD j EF.nan)) p rest hpts
  obtain ⟨hfp, hprev⟩ := hrf
  have hf0 := hprev (p - 1) (by omega)
  simp only [] at hfp hf0
  constructor
  · intro h0
    obtain ⟨q, hq1, hq2⟩ := EF.sub_eq_fin_zero _ _ h0
    rw [hq1] at hfp
    rw [hq2, hfp] at hf0
    simp at hf0
  · intro r t w0 w1 hr0 hr1 htp hw0 hw1
    have hbw : p - 1 < wfm.length := getD_fin_lt _ _ _ hw0
    have hbr : p - 1 < rng.length := getD_fin_lt _ _ _ hr0
    have ht1 : t < w1 := by
      rw [htp, hw1] at hfp
      simpa [EF.ltB] using hfp
    have ht0 : w0 ≤ t := by
      rw [htp, hw0] at hf0
      simpa [EF.ltB] using hf0
    have hpos : (0:ℚ) < w1 - w0 := by linarith
    unfold tfmra_get_threshold_range
    simp only []
    rw [hpts]
    simp only []
    rw [pyGet_sub_one wfm p hp hbw, pyGet_sub_one rng p hp hbr,
      htp, hw0, hw1, hr0, hr1]
    have hsubw : EF.sub (EF.fin w1) (EF.fin w0) = EF.fin (w1 - w0) := by
      simp [EF.sub, EF.add, EF.neg, sub_eq_add_neg]
    have hsubr : EF.sub (EF.fin r) (EF.fin r) = EF.fin 0 := by
      simp [EF.sub, EF.add, EF.neg]
    rw [hsubw, hsubr]
    have hgrad : EF.div (EF.fin (w1 - w0)) (EF.fin 0) = EF.pinf := by
      simp only [EF.div]
      simp [hpos]
    rw [hgrad]
    have hnum : EF.sub (EF.fin t) (EF.fin w0) = EF.fin (t - w0) := by
      simp [EF.sub, EF.add, EF.neg, sub_eq_add_neg]
    rw [hnum]
    have hdiv : EF.div (EF.fin (t - w0)) EF.pinf = EF.fin 0 := by
      simp only [EF.div]
    rw [hdiv]
    have hadd : EF.add (EF.fin 0) (EF.fin r) = EF.fin r := by
      simp [EF.add]
    rw [hadd]

/-- Witness for `claim_c9_zero_gradient_behaviour` at the concrete input
`rng = [0,0,0]`, `wfm = [1,2,3]`, first maximum 2, threshold 0.5
(crossing at index 1, zero range difference). -/
theorem claim_c9_zero_gradient_behaviour_witness :
    (EF.sub (([EF.fin 1, EF.fin 2, EF.fin 3] : List EF).getD 1 EF.nan)
        (([EF.fin 1, EF.fin 2, EF.fin 3] : List EF).getD (1 - 1) EF.nan) ≠ EF.fin 0) ∧
    tfmra_get_threshold_range [EF.fin 0, EF.fin 0, EF.fin 0]
        [EF.fin 1, EF.fin 2, EF.fin 3] 2 (EF.fin (1/2)) = (EF.fin 0, EF.fin (3/2)) := by
  have h := claim_c9_zero_gradient_behaviour [EF.fin 0, EF.fin 0, EF.fin 0]
    [EF.fin 1, EF.fin 2, EF.fin 3] 2 (EF.fin (1/2)) 1 []
    (by with_unfolding_all decide) (by decide)
  refine ⟨h.1, h.2 0 (3/2) 1 2 ?_ ?_ ?_ ?_ ?_⟩
  · with_unfolding_all rfl
  · with_unfolding_all rfl
  · with_unfolding_all decide
  · with_unfolding_all rfl
  · with_unfolding_all rfl

/-- C6: an unrecognized threshold-policy tag (any `type` other than the
recognized `fixed` / `sigma_func` / `sitype_sigma_func` / `poly_plane_fit`
variants — the legacy bare-float option is a separate, recognized case)
makes the threshold evaluator raise `ValueError("treshold type not
recognized: ...")`, and `cTFMRA.l2_retrack` raises the same error BEFORE
any record is processed: the threshold array is computed first, so the
call returns the error without producing any state — no record's range or
power is written (no partial output). -/
theorem claim_c6_unknown_policy_raises_before_output (c : ThresholdCfg)
    (opts : CtfmraOptions) (cls : Classifiers) (st : RState) (indices : List Nat)
    (n : Nat) (sigma0 lew sitype : List EF)
    (hopt : opts.threshold = ThresholdOpt.cfg c)
    (h1 : c.type ≠ "fixed") (h2 : c.type ≠ "sigma_func")
    (h3 : c.type ≠ "sitype_sigma_func") (h4 : c.type ≠ "poly_plane_fit") :
    threshold_eval (ThresholdOpt.cfg c) n indices sigma0 lew sitype =
      Except.error ("treshold type not recognized: " ++ c.type) ∧
    ctfmra_l2_retrack opts cls st indices =
      Except.error ("treshold type not recognized: " ++ c.type) := by
  have he : threshold_eval (ThresholdOpt.cfg c) st.l1b.n_records indices
      cls.sigma0 cls.lew cls.sitype =
      Except.error ("treshold type not recognized: " ++ c.type) := by
    simp only [threshold_eval]
    rw [if_neg h1, if_neg h2, if_neg h3, if_neg h4]
  constructor
  · simp only [threshold_eval]
    rw [if_neg h1, if_neg h2, if_neg h3, if_neg h4]
  · unfold ctfmra_l2_retrack ctfmra_get_tfmra_threshold
    rw [hopt, he]

/-- Witness for `claim_c6_unknown_policy_raises_before_output` with the
unregistered tag `"quadratic"`. -/
theorem claim_c6_unknown_policy_witness :
    threshold_eval (ThresholdOpt.cfg ⟨"quadratic", 0, [], [], [], 0, [], []⟩) 1 [0]
        [] [] [] = Except.error ("treshold type not recognized: " ++ "quadratic") ∧
    ctfmra_l2_retrack
        ⟨ThresholdOpt.cfg ⟨"quadratic", 0, [], [], [], 0, [], []⟩, 0, 1, [1, 1, 1],
          [3/20, 3/20, 9/20], none, none⟩ clsW (default_state l1bFlatTail) [0] =
      Except.error ("treshold type not recognized: " ++ "quadratic") :=
  claim_c6_unknown_policy_raises_before_output
    ⟨"quadratic", 0, [], [], [], 0, [], []⟩ _ clsW (default_state l1bFlatTail) [0] 1 [] [] []
    rfl (by decide) (by decide) (by decide) (by decide)

/-- C7: under the `sitype_sigma_func` threshold policy, a record whose
`sitype` classifier value is exactly `0.5` gets the FYI polynomial
`Σ coef_fyi[i] · sigma0^i` — the MYI polynomial is substituted only where
`sitype > 0.5` holds STRICTLY (`np.where(sitype > 0.5)`), so the tie at
exactly `0.5` favours FYI.  Stated for `cTFMRA.get_tfmra_threshold`; the
`sitype_sigma_func` branch of `SICCI2TfmraEnvisat.get_tfmra_threshold` is
the same dispatch (`threshold_eval`). -/
theorem claim_c7_sitype_tie_selects_fyi (n : Nat) (indices : List Nat)
    (cls : Classifiers) (cf cm : List ℚ) (idx : Nat)
    (hidx : idx ∈ indices) (hn : idx < n)
    (hs : cls.sigma0.length = n) (ht : cls.sitype.length = n)
    (hhalf : cls.sitype.getD idx EF.nan = EF.fin (1/2)) :
    ∃ thr,
      ctfmra_get_tfmra_threshold
          (ThresholdOpt.cfg ⟨"sitype_sigma_func", 0, [], cf, cm, 0, [], []⟩)
          n indices cls = Except.ok thr ∧
      thr.getD idx EF.nan = polyEvalEF cf (cls.sigma0.getD idx EF.nan) := by
  unfold ctfmra_get_tfmra_threshold
  simp only [threshold_eval]
  rw [if_pos trivial]
  refine ⟨_, rfl, ?_⟩
  unfold maskToIndices
  rw [getD_range_map n idx _ hn, if_pos hidx]
  rw [hs, getD_range_map n idx _ hn, hhalf]
  rw [if_neg (by simp [EF.ltB])]
  rw [polyArrGo_getD cls.sigma0 cf idx (by omega) 0 _ (by simp [hs])]
  simp [List.getD_eq_getElem?_getD, List.getElem?_replicate, hn, polyEvalEF]

/-- Witness for `claim_c7_sitype_tie_selects_fyi`: one record,
`sigma0 = [2]`, `sitype = [1/2]`, FYI coefficients `[1/10, 1/100]`,
MYI coefficients `[9/10]`; the FYI polynomial gives
`1/10 + (1/100)·2 = 3/25`. -/
theorem claim_c7_sitype_tie_witness :
    ∃ thr,
      ctfmra_get_tfmra_threshold
          (ThresholdOpt.cfg ⟨"sitype_sigma_func", 0, [], [1/10, 1/100], [9/10], 0, [], []⟩)
          1 [0] ⟨[EF.fin 2], [], [EF.fin (1/2)]⟩ = Except.ok thr ∧
      thr.getD 0 EF.nan =
        polyEvalEF [1/10, 1/100] ((⟨[EF.fin 2], [], [EF.fin (1/2)]⟩ : Classifiers).sigma0.getD 0 EF.nan) :=
  claim_c7_sitype_tie_selects_fyi 1 [0] ⟨[EF.fin 2], [], [EF.fin (1/2)]⟩
    [1/10, 1/100] [9/10] 0 (by decide) (by decide) (by decide) (by decide)
    (by with_unfolding_all rfl)

/-- C8: for every filtered waveform and oversampling factor `k ≥ 1`, the
noise floor computed by `wfm_get_noise_level` is the mean power of the
first `5·k` oversampled bins (here without NaNs, so `bn.nanmean` is the
plain mean), and the definition depends on nothing but those bins — in
particular not on the smoothing window, which it never receives.  For a
waveform with constant power `c` in bins `0 .. 5k-1` the noise floor
equals `c` exactly. -/
theorem claim_c8_noise_floor_mean (k : Nat) (wfm : List EF) (qs : List ℚ)
    (hk : 1 ≤ k) (hlen : 5 * k ≤ wfm.length)
    (h : wfm.take (5 * k) = qs.map EF.fin) :
    wfm_get_noise_level wfm k = EF.fin (qs.sum / ((5 * k : Nat) : ℚ)) ∧
    ∀ c : ℚ, (∀ q ∈ qs, q = c) → wfm_get_noise_level wfm k = EF.fin c := by
  have hqlen : qs.length = 5 * k := by
    have := congrArg List.length h
    rw [List.length_take, List.length_map] at this
    omega
  have hmain : wfm_get_noise_level wfm k = EF.fin (qs.sum / ((5 * k : Nat) : ℚ)) := by
    unfold wfm_get_noise_level bnNanmean
    rw [h]
    simp only []
    have hfil : (qs.map EF.fin).filter (fun v => !v.isNan) = qs.map EF.fin := by
      apply List.filter_eq_self.mpr
      intro a ha
      obtain ⟨q, -, rfl⟩ := List.mem_map.mp ha
      simp [EF.isNan]
    rw [hfil]
    rw [if_neg (by
      intro hempty
      rw [List.isEmpty_iff] at hempty
      apply_fun List.length at hempty
      rw [List.length_map, hqlen] at hempty
      simp at hempty
      omega)]
    rw [efSum_map_fin, List.length_map, hqlen]
    have h5k : ((5 * k : Nat) : ℚ) ≠ 0 := by
      have h0 : 5 * k ≠ 0 := by omega
      exact_mod_cast h0
    simp only [EF.div]
    rw [if_neg h5k]
  refine ⟨hmain, ?_⟩
  intro c hc
  rw [hmain, list_sum_all_eq qs c hc, hqlen]
  congr 1
  have h5k : ((5 * k : Nat) : ℚ) ≠ 0 := by
    have h0 : 5 * k ≠ 0 := by omega
    exact_mod_cast h0
  field_simp

/-- Witness for `claim_c8_noise_floor_mean`: `k = 1`, constant power `2`
in the first five bins. -/
theorem claim_c8_noise_floor_mean_witness :
    wfm_get_noise_level wfmFlatTail 1 = EF.fin (([1, 1, 1, 1, 1] : List ℚ).sum / ((5 * 1 : Nat) : ℚ)) ∧
    ∀ c : ℚ, (∀ q ∈ ([1, 1, 1, 1, 1] : List ℚ), q = c) →
      wfm_get_noise_level wfmFlatTail 1 = EF.fin c :=
  claim_c8_noise_floor_mean 1 wfmFlatTail [1, 1, 1, 1, 1] (by decide) (by decide)
    (by with_unfolding_all rfl)

theorem tfmra_l2_retrack_flag (opts : TfmraOptions) (st : RState) (idx : List Nat) :
    (tfmra_l2_retrack opts st idx).flag_r = st.flag_r := by
  unfold tfmra_l2_retrack
  cases opts.range_bias with
  | none => exact tfmra_loop_flag opts st idx
  | some bias => exact tfmra_loop_flag opts st idx

theorem tfmra_l2_retrack_l1b (opts : TfmraOptions) (st : RState) (idx : List Nat) :
    (tfmra_l2_retrack opts st idx).l1b = st.l1b := by
  unfold tfmra_l2_retrack
  cases opts.range_bias with
  | none => exact tfmra_loop_l1b opts st idx
  | some bias => exact tfmra_loop_l1b opts st idx

theorem ctfmra_l2_retrack_flag (opts : CtfmraOptions) (cls : Classifiers) (st : RState)
    (idx : List Nat) (out : RState) (h : ctfmra_l2_retrack opts cls st idx = Except.ok out) :
    out.flag_r = st.flag_r := by
  unfold ctfmra_l2_retrack at h
  cases heval : ctfmra_get_tfmra_threshold opts.threshold st.l1b.n_records idx cls with
  | error e => rw [heval] at h; cases h
  | ok thresholds =>
    rw [heval] at h
    simp only [Except.ok.injEq] at h
    subst h
    cases opts.range_bias with
    | none =>
      cases opts.uncertainty_fixed with
      | none => exact ctfmra_loop_flag opts thresholds st idx
      | some u => exact ctfmra_loop_flag opts thresholds st idx
    | some bias =>
      cases opts.uncertainty_fixed with
      | none => exact ctfmra_loop_flag opts thresholds st idx
      | some u => exact ctfmra_loop_flag opts thresholds st idx

theorem ctfmra_l2_retrack_l1b (opts : CtfmraOptions) (cls : Classifiers) (st : RState)
    (idx : List Nat) (out : RState) (h : ctfmra_l2_retrack opts cls st idx = Except.ok out) :
    out.l1b = st.l1b := by
  unfold ctfmra_l2_retrack at h
  cases heval : ctfmra_get_tfmra_threshold opts.threshold st.l1b.n_records idx cls with
  | error e => rw [heval] at h; cases h
  | ok thresholds =>
    rw [heval] at h
    simp only [Except.ok.injEq] at h
    subst h
    cases opts.range_bias with
    | none =>
      cases opts.uncertainty_fixed with
      | none => exact ctfmra_loop_l1b opts thresholds st idx
      | some u => exact ctfmra_loop_l1b opts thresholds st idx
    | some bias =>
      cases opts.uncertainty_fixed with
      | none => exact ctfmra_loop_l1b opts thresholds st idx
      | some u => exact ctfmra_loop_l1b opts thresholds st idx

theorem sicci2_l2_retrack_flag (opts : Sicci2Options) (sigma0 lew1 lew2 sitype : List EF)
    (st : RState) (idx : List Nat) (out : RState)
    (h : sicci2_l2_retrack opts sigma0 lew1 lew2 sitype st idx = Except.ok out) :
    out.flag_r = st.flag_r := by
  unfold sicci2_l2_retrack at h
  simp only [] at h
  cases heval : sicci2_get_tfmra_threshold opts.threshold sigma0
      (List.zipWith EF.add lew1 lew2) sitype idx with
  | error e => rw [heval] at h; cases h
  | ok thresholds =>
    rw [heval] at h
    simp only [Except.ok.injEq] at h
    subst h
    cases opts.uncertainty_fixed with
    | none => exact sicci2_loop_flag opts thresholds st idx
    | some u => exact sicci2_loop_flag opts thresholds st idx

/-- C2, amended: when the first-maximum finder returns the sentinel `-1`
for index `i`, range and power at `i` are set to NaN and no exception is
raised (the embedded loops are total functions), but the per-record
invalid flag is NOT modified (neither variant ever writes `self._flag`),
and the variants continue differently: `cTFMRA.l2_retrack` (`continue`)
proceeds with the remaining indices of the set, whereas `TFMRA.l2_retrack`
(`return`) stops — the remaining indices are not processed at all. -/
theorem claim_c2_sentinel_nan_no_flag_tfmra_stops (topts : TfmraOptions)
    (copts : CtfmraOptions) (thr : List EF) (st : RState) (i : Nat) (rest : List Nat)
    (hf : (tfmra_get_filtered_wfm topts.wfm_oversampling_factor
        topts.wfm_smoothing_window_size topts.first_maximum_normalized_threshold
        (st.l1b.rng.getD i []) (st.l1b.power.getD i [])
        (st.l1b.radar_mode.getD i 0)).fmi = -1) :
    tfmra_loop topts st (i :: rest) =
      { st with rng_r := st.rng_r.set i EF.nan, pow_r := st.pow_r.set i EF.nan } ∧
    (tfmra_loop topts st (i :: rest)).flag_r = st.flag_r ∧
    (st.l1b.is_valid.getD i true = true →
      (ctfmra_get_filtered_wfm copts.wfm_oversampling_factor
          copts.wfm_smoothing_window_size copts.first_maximum_normalized_threshold
          (st.l1b.rng.getD i []) (st.l1b.power.getD i [])
          (st.l1b.radar_mode.getD i 0)).fmi = -1 →
      ctfmra_loop copts thr st (i :: rest) =
        ctfmra_loop copts thr
          { st with rng_r := st.rng_r.set i EF.nan, pow_r := st.pow_r.set i EF.nan } rest) := by
  have hrec : tfmra_record topts (st.l1b.rng.getD i []) (st.l1b.power.getD i [])
      (st.l1b.radar_mode.getD i 0) = none := by
    unfold tfmra_record
    simp only []
    rw [if_pos hf]
  refine ⟨?_, ?_, ?_⟩
  · unfold tfmra_loop
    rw [hrec]
  · unfold tfmra_loop
    rw [hrec]
  · intro hv hcf
    have hcrec : ctfmra_record copts (thr.getD i EF.nan) (st.l1b.rng.getD i [])
        (st.l1b.power.getD i []) (st.l1b.radar_mode.getD i 0) = none := by
      unfold ctfmra_record
      simp only []
      rw [if_pos hcf]
    conv_lhs => unfold ctfmra_loop
    rw [if_neg (by rw [hv]; simp), hcrec]

/-- Witness for `claim_c2_sentinel_nan_no_flag_tfmra_stops` at a concrete
two-record granule whose first record is all-NaN (the first-maximum
search fails with `-1` in both variants). -/
theorem claim_c2_sentinel_witness :
    tfmra_loop toptsW (default_state l1bNanThenRamp) [0, 1] =
      { default_state l1bNanThenRamp with
        rng_r := (default_state l1bNanThenRamp).rng_r.set 0 EF.nan,
        pow_r := (default_state l1bNanThenRamp).pow_r.set 0 EF.nan } ∧
    (tfmra_loop toptsW (default_state l1bNanThenRamp) [0, 1]).flag_r =
      (default_state l1bNanThenRamp).flag_r ∧
    ((default_state l1bNanThenRamp).l1b.is_valid.getD 0 true = true →
      (ctfmra_get_filtered_wfm coptsW.wfm_oversampling_factor
          coptsW.wfm_smoothing_window_size coptsW.first_maximum_normalized_threshold
          ((default_state l1bNanThenRamp).l1b.rng.getD 0 [])
          ((default_state l1bNanThenRamp).l1b.power.getD 0 [])
          ((default_state l1bNanThenRamp).l1b.radar_mode.getD 0 0)).fmi = -1 →
      ctfmra_loop coptsW [EF.fin (1/2), EF.fin (1/2)] (default_state l1bNanThenRamp) [0, 1] =
        ctfmra_loop coptsW [EF.fin (1/2), EF.fin (1/2)]
          { default_state l1bNanThenRamp with
            rng_r := (default_state l1bNanThenRamp).rng_r.set 0 EF.nan,
            pow_r := (default_state l1bNanThenRamp).pow_r.set 0 EF.nan } [1]) :=
  claim_c2_sentinel_nan_no_flag_tfmra_stops toptsW coptsW [EF.fin (1/2), EF.fin (1/2)]
    (default_state l1bNanThenRamp) 0 [1] (by with_unfolding_all decide)

/-- C2, counterexample: at the two-record granule `l1bNanThenRamp`
(record 0 all-NaN, record 1 well-behaved) the claim fails in two ways.
The record with the `-1` sentinel is NOT "marked invalid" (its flag stays
`false`), and for `TFMRA.l2_retrack` processing does NOT continue: record
1, which cTFMRA retracks to range `3/2`, is left at its default NaN by
TFMRA because the loop `return`s at record 0. -/
theorem claim_c2_counterexample :
    (tfmra_retrack toptsW l1bNanThenRamp none).2.rng_r = [EF.nan, EF.nan] ∧
    (tfmra_retrack toptsW l1bNanThenRamp none).2.flag_r.getD 0 true = false ∧
    ctfmra_retrack coptsW clsW l1bNanThenRamp none =
      Except.ok (true,
        ⟨l1bNanThenRamp, [EF.nan, EF.fin (3/2)], [EF.nan, EF.fin (3/2)],
          [EF.fin 0, EF.fin 0], [false, false]⟩) :=
  ⟨by with_unfolding_all decide, by with_unfolding_all decide, by with_unfolding_all rfl⟩

/-- C4, amended: after a `retrack` call of any of the embedded variants
(TFMRA, cTFMRA, SICCI2TfmraEnvisat), the per-record invalid flag
`self._flag` is all-false — these variants never set it (only the
SICCI lead/ocog retrackers do).  Consequently the claimed invariant
"`invalid == true` whenever `range` is NaN" does NOT hold: records whose
range is NaN (defaults, sentinel failures, empty crossing sets) carry
`invalid == false`. -/
theorem claim_c4_flag_never_set (topts : TfmraOptions) (l1b : L1bData)
    (idx : Option (List Nat)) :
    ((tfmra_retrack topts l1b idx).2).flag_r = List.replicate l1b.n_records false ∧
    (∀ (copts : CtfmraOptions) (cls : Classifiers) (out : Bool × RState),
      ctfmra_retrack copts cls l1b idx = Except.ok out →
      out.2.flag_r = List.replicate l1b.n_records false) ∧
    (∀ (sopts : Sicci2Options) (sigma0 lew1 lew2 sitype : List EF) (out : Bool × RState),
      sicci2_retrack sopts sigma0 lew1 lew2 sitype l1b idx = Except.ok out →
      out.2.flag_r = List.replicate l1b.n_records false) := by
  refine ⟨?_, ?_, ?_⟩
  · unfold tfmra_retrack
    simp only []
    split
    · rfl
    · exact tfmra_l2_retrack_flag topts (default_state l1b) _
  · intro copts cls out h
    unfold ctfmra_retrack at h
    simp only [] at h
    split at h
    · simp only [Except.ok.injEq] at h
      subst h
      rfl
    · cases hin : ctfmra_l2_retrack copts cls (default_state l1b)
          (idx.getD (List.range l1b.n_records)) with
      | error e => rw [hin] at h; cases h
      | ok st' =>
        rw [hin] at h
        simp only [Except.ok.injEq] at h
        subst h
        exact ctfmra_l2_retrack_flag copts cls (default_state l1b) _ st' hin
  · intro sopts sigma0 lew1 lew2 sitype out h
    unfold sicci2_retrack at h
    simp only [] at h
    split at h
    · simp only [Except.ok.injEq] at h
      subst h
      rfl
    · cases hin : sicci2_l2_retrack sopts sigma0 lew1 lew2 sitype (default_state l1b)
          (idx.getD (List.range l1b.n_records)) with
      | error e => rw [hin] at h; cases h
      | ok st' =>
        rw [hin] at h
        simp only [Except.ok.injEq] at h
        subst h
        exact sicci2_l2_retrack_flag sopts sigma0 lew1 lew2 sitype (default_state l1b) _ st' hin

/-- Witness for `claim_c4_flag_never_set` at concrete granules, with the
`Except.ok` hypotheses discharged by evaluation. -/
theorem claim_c4_flag_never_set_witness :
    ((tfmra_retrack toptsW l1bNanThenRamp none).2).flag_r =
      List.replicate l1bNanThenRamp.n_records false ∧
    (true, (⟨l1bNanThenRamp, [EF.nan, EF.fin (3/2)], [EF.nan, EF.fin (3/2)],
        [EF.fin 0, EF.fin 0], [false, false]⟩ : RState)).2.flag_r =
      List.replicate l1bNanThenRamp.n_records false ∧
    (true, (⟨⟨[rngSix], [[EF.fin 0, EF.fin 0, EF.fin 0, EF.fin 0, EF.fin 0, EF.fin 2]],
        [0], [true]⟩, [EF.nan], [EF.nan], [EF.fin 0], [false]⟩ : RState)).2.flag_r =
      List.replicate l1bFlatTail.n_records false := by
  refine ⟨(claim_c4_flag_never_set toptsW l1bNanThenRamp none).1, ?_, ?_⟩
  · exact (claim_c4_flag_never_set toptsW l1bNanThenRamp none).2.1 coptsW clsW _
      (by with_unfolding_all rfl)
  · exact (claim_c4_flag_never_set toptsW l1bFlatTail none).2.2
      soptsW [EF.fin 0] [EF.fin 0] [EF.fin 0] [EF.fin 0] _ (by with_unfolding_all rfl)

/-- C4, counterexample: after `TFMRA.retrack` on `l1bNanThenRamp` the
range at record 0 is NaN while the invalid flag at record 0 is `false` —
the claimed invariant `range = NaN → invalid = true` fails. -/
theorem claim_c4_counterexample :
    ((tfmra_retrack toptsW l1bNanThenRamp none).2.rng_r.getD 0 (EF.fin 0)).isNan = true ∧
    (tfmra_retrack toptsW l1bNanThenRamp none).2.flag_r.getD 0 true = false := by
  with_unfolding_all decide

/-- C5, amended: `TFMRA.retrack` and `cTFMRA.retrack` leave the input
Waveform arrays (`range`, `power`, `radar_mode`, `is_valid`) unchanged —
they only read them.  The claim does NOT hold for `SICCI2TfmraEnvisat`,
whose `l2_retrack` zeroes `power[i, 0:5]` in place through a numpy view
for every processed record (see `claim_c5_counterexample`). -/
theorem claim_c5_tfmra_ctfmra_inputs_unchanged (topts : TfmraOptions) (l1b : L1bData)
    (idx : Option (List Nat)) :
    ((tfmra_retrack topts l1b idx).2).l1b = l1b ∧
    (∀ (copts : CtfmraOptions) (cls : Classifiers) (out : Bool × RState),
      ctfmra_retrack copts cls l1b idx = Except.ok out → out.2.l1b = l1b) := by
  constructor
  · unfold tfmra_retrack
    simp only []
    split
    · rfl
    · exact tfmra_l2_retrack_l1b topts (default_state l1b) _
  · intro copts cls out h
    unfold ctfmra_retrack at h
    simp only [] at h
    split at h
    · simp only [Except.ok.injEq] at h
      subst h
      rfl
    · cases hin : ctfmra_l2_retrack copts cls (default_state l1b)
          (idx.getD (List.range l1b.n_records)) with
      | error e => rw [hin] at h; cases h
      | ok st' =>
        rw [hin] at h
        simp only [Except.ok.injEq] at h
        subst h
        exact ctfmra_l2_retrack_l1b copts cls (default_state l1b) _ st' hin

/-- Witness for `claim_c5_tfmra_ctfmra_inputs_unchanged` at a concrete
granule. -/
theorem claim_c5_inputs_unchanged_witness :
    ((tfmra_retrack toptsW l1bNanThenRamp none).2).l1b = l1bNanThenRamp ∧
    (true, (⟨l1bNanThenRamp, [EF.nan, EF.fin (3/2)], [EF.nan, EF.fin (3/2)],
        [EF.fin 0, EF.fin 0], [false, false]⟩ : RState)).2.l1b = l1bNanThenRamp :=
  ⟨(claim_c5_tfmra_ctfmra_inputs_unchanged toptsW l1bNanThenRamp none).1,
    (claim_c5_tfmra_ctfmra_inputs_unchanged toptsW l1bNanThenRamp none).2 coptsW clsW _
      (by with_unfolding_all rfl)⟩

/-- C5, counterexample: `SICCI2TfmraEnvisat.retrack` on a record whose
first five power bins are `1` returns a state whose `l1b.power` has those
bins zeroed — `wfm_skipped = wfm[i, :]` is a numpy VIEW, so
`wfm_skipped[0:5] = 0` mutates the input power array, contradicting the
"read-only for the engine's lifetime" claim. -/
theorem claim_c5_counterexample :
    sicci2_retrack soptsW [EF.fin 0] [EF.fin 0] [EF.fin 0] [EF.fin 0] l1bFlatTail none =
      Except.ok (true,
        ⟨⟨[rngSix], [[EF.fin 0, EF.fin 0, EF.fin 0, EF.fin 0, EF.fin 0, EF.fin 2]], [0], [true]⟩,
          [EF.nan], [EF.nan], [EF.fin 0], [false]⟩) ∧
    (⟨⟨[rngSix], [[EF.fin 0, EF.fin 0, EF.fin 0, EF.fin 0, EF.fin 0, EF.fin 2]], [0], [true]⟩,
        [EF.nan], [EF.nan], [EF.fin 0], [false]⟩ : RState).l1b.power ≠ l1bFlatTail.power :=
  ⟨by with_unfolding_all rfl, by with_unfolding_all decide⟩

theorem FiltResult.ext' (a b : FiltResult) (h1 : a.filt_rng = b.filt_rng)
    (h2 : a.filt_wfm = b.filt_wfm) (h3 : a.fmi = b.fmi) (h4 : a.norm = b.norm) :
    a = b := by
  cases a
  cases b
  rw [FiltResult.mk.injEq]
  exact ⟨h1, h2, h3, h4⟩

/-- C3, amended: the reference (TFMRA) and optimized (cTFMRA) variants are
NOT output-equivalent on all identical inputs (cTFMRA skips records marked
invalid, TFMRA aborts on the `-1` sentinel, and the peak-search windows
differ: `wfm[0:argmax]` vs `wfm[0:argmax+1]`, which can select different
first maxima — see `claim_c3_counterexample`).  What does hold: for every
ODD smoothing window both variants compute identical oversampled, filtered
and normalized waveforms and identical norms (the `bnsmooth` and `smooth`
kernels agree on odd windows, and the modelled cython kernels equal the
reference ones); and whenever the two variants additionally select the
same first-maximum index with the same threshold and offset, they produce
exactly the same per-record `(range, power)` pair. -/
theorem claim_c3_equivalence_under_conditions (k : Nat) (ws : List Nat) (fmnt : List ℚ)
    (q off : ℚ) (rb : Option (List ℚ)) (unc : Option ℚ)
    (rng wfm : List EF) (mode : Nat)
    (hodd : (ws.getD mode 1) % 2 = 1) :
    (ctfmra_get_filtered_wfm k ws fmnt rng wfm mode).filt_rng =
      (tfmra_get_filtered_wfm k ws fmnt rng wfm mode).filt_rng ∧
    (ctfmra_get_filtered_wfm k ws fmnt rng wfm mode).filt_wfm =
      (tfmra_get_filtered_wfm k ws fmnt rng wfm mode).filt_wfm ∧
    (ctfmra_get_filtered_wfm k ws fmnt rng wfm mode).norm =
      (tfmra_get_filtered_wfm k ws fmnt rng wfm mode).norm ∧
    ((ctfmra_get_filtered_wfm k ws fmnt rng wfm mode).fmi =
        (tfmra_get_filtered_wfm k ws fmnt rng wfm mode).fmi →
      ctfmra_record ⟨ThresholdOpt.flt q, off, k, ws, fmnt, rb, unc⟩ (EF.fin q) rng wfm mode =
        tfmra_record ⟨q, off, k, ws, fmnt, rb⟩ rng wfm mode) := by
  have hnorm : cytfmra_normalize_wfm = tfmra_normalize_wfm := rfl
  have hnoise : cytfmra_wfm_noise_level = wfm_get_noise_level := rfl
  have hgtr : ctfmra_get_threshold_range = tfmra_get_threshold_range := rfl
  have hfw : ctfmra_filter_waveform k ws rng wfm mode =
      tfmra_filter_waveform k ws rng wfm mode := by
    unfold ctfmra_filter_waveform tfmra_filter_waveform cytfmra_interpolate
    simp only []
    rw [bnsmooth_eq_smooth _ _ hodd]
  have e1 : (ctfmra_get_filtered_wfm k ws fmnt rng wfm mode).filt_rng =
      (tfmra_get_filtered_wfm k ws fmnt rng wfm mode).filt_rng := by
    unfold ctfmra_get_filtered_wfm tfmra_get_filtered_wfm
    simp only []
    simp only [hfw, hnorm, hnoise]
  have e2 : (ctfmra_get_filtered_wfm k ws fmnt rng wfm mode).filt_wfm =
      (tfmra_get_filtered_wfm k ws fmnt rng wfm mode).filt_wfm := by
    unfold ctfmra_get_filtered_wfm tfmra_get_filtered_wfm
    simp only []
    simp only [hfw, hnorm, hnoise]
  have e3 : (ctfmra_get_filtered_wfm k ws fmnt rng wfm mode).norm =
      (tfmra_get_filtered_wfm k ws fmnt rng wfm mode).norm := by
    unfold ctfmra_get_filtered_wfm tfmra_get_filtered_wfm
    simp only []
    simp only [hfw, hnorm, hnoise]
  refine ⟨e1, e2, e3, ?_⟩
  intro hfmi
  have hGF : ctfmra_get_filtered_wfm k ws fmnt rng wfm mode =
      tfmra_get_filtered_wfm k ws fmnt rng wfm mode :=
    FiltResult.ext' _ _ e1 e2 hfmi e3
  unfold ctfmra_record tfmra_record
  simp only []
  rw [hGF, hgtr]

/-- Witness for `claim_c3_equivalence_under_conditions` at `k = 1`, odd
window `1`, threshold `0.5`, on the well-behaved record `wfmRamp`. -/
theorem claim_c3_equivalence_witness :
    (ctfmra_get_filtered_wfm 1 [1, 1, 1] [3/20, 3/20, 9/20] rngSix wfmRamp 0).filt_rng =
      (tfmra_get_filtered_wfm 1 [1, 1, 1] [3/20, 3/20, 9/20] rngSix wfmRamp 0).filt_rng ∧
    (ctfmra_get_filtered_wfm 1 [1, 1, 1] [3/20, 3/20, 9/20] rngSix wfmRamp 0).filt_wfm =
      (tfmra_get_filtered_wfm 1 [1, 1, 1] [3/20, 3/20, 9/20] rngSix wfmRamp 0).filt_wfm ∧
    (ctfmra_get_filtered_wfm 1 [1, 1, 1] [3/20, 3/20, 9/20] rngSix wfmRamp 0).norm =
      (tfmra_get_filtered_wfm 1 [1, 1, 1] [3/20, 3/20, 9/20] rngSix wfmRamp 0).norm ∧
    ((ctfmra_get_filtered_wfm 1 [1, 1, 1] [3/20, 3/20, 9/20] rngSix wfmRamp 0).fmi =
        (tfmra_get_filtered_wfm 1 [1, 1, 1] [3/20, 3/20, 9/20] rngSix wfmRamp 0).fmi →
      ctfmra_record ⟨ThresholdOpt.flt (1/2), 0, 1, [1, 1, 1], [3/20, 3/20, 9/20], none, none⟩
          (EF.fin (1/2)) rngSix wfmRamp 0 =
        tfmra_record ⟨1/2, 0, 1, [1, 1, 1], [3/20, 3/20, 9/20], none⟩ rngSix wfmRamp 0) :=
  claim_c3_equivalence_under_conditions 1 [1, 1, 1] [3/20, 3/20, 9/20] (1/2) 0 none none
    rngSix wfmRamp 0 (by decide)

/-- C3, counterexample: on the all-valid one-record granule `l1bAdjPeak`
(no `-1` sentinel in either variant) the reference variant selects the
leading-edge peak at bin 6 as first maximum (its peak search stops before
the absolute maximum, and the boundary padding of `findpeaks` makes the
last bin of the truncated window a peak), while the optimized variant's
search window includes the absolute maximum bin 7 and selects it instead;
the retracked ranges are `19/4` vs `29/6`, which differ by `1/12 ≈ 0.083`
— far beyond the spec's `1e-4` tolerance. -/
theorem claim_c3_counterexample :
    (tfmra_retrack toptsW l1bAdjPeak none).2.rng_r = [EF.fin (19/4)] ∧
    ctfmra_retrack coptsW clsW l1bAdjPeak none =
      Except.ok (true, ⟨l1bAdjPeak, [EF.fin (29/6)], [EF.fin (1/2)], [EF.fin 0], [false]⟩) ∧
    (EF.fin (19/4) : EF) ≠ EF.fin (29/6) :=
  ⟨by with_unfolding_all decide, by with_unfolding_all rfl, by with_unfolding_all decide⟩
